import Mathlib

/-!
Verification of the JSON-RPC framing, buffering and concurrency-controlled
dispatch core of the mcp-framework repository.

The definitions below are a shallow embedding of the TypeScript sources:
  - src/transport/framing.ts   (StdioTransport, AsyncSemaphore, safeJsonParse)
  - src/dispatcher.ts          (RpcHandlerRegistry)
  - src/client/mcp-client.ts   (mapErrorToJsonRpc, JSONRPC_ERROR_CODES)

JavaScript strings are modelled as `List Char`; JSON numbers keep their
source lexeme (no claim here depends on numeric normalisation); machine
integers are `Int`/`Nat` (the JS values involved never overflow doubles on
the paths the claims are about).
-/

namespace MCPF

/-! ## JSON value model

A decoded JSON value, as produced by `JSON.parse`.  Numbers keep their raw
lexeme: none of the verified properties inspects a numeric value beyond its
type tag. -/

inductive Json where
  | null : Json
  | bool (b : Bool) : Json
  | num (lex : String) : Json
  | str (s : String) : Json
  | arr (items : List Json) : Json
  | obj (fields : List (String × Json)) : Json

/-- Field lookup with JavaScript semantics: `JSON.parse` keeps the *last*
occurrence of a duplicated key, so the rightmost binding wins. -/
def lookupField : List (String × Json) → String → Option Json
  | [], _ => none
  | (k, v) :: rest, key =>
    match lookupField rest key with
    | some w => some w
    | none => if k == key then some v else none

/-- JavaScript property access `m.key` on a decoded JSON value: `undefined`
(`none`) unless `m` is an object with the key.  (Access on `null` would
throw in JS, but every access in the embedded code is guarded by a
truthiness check, so the `none` default is never observable there.) -/
def getField : Json → String → Option Json
  | .obj fields, key => lookupField fields key
  | _, _ => none

/-- Whether a number lexeme denotes zero: optional sign, then mantissa made
of `0` digits and at most a decimal point (the exponent cannot make a zero
mantissa non-zero). -/
def numLexIsZero (lex : String) : Bool :=
  let body := if lex.startsWith "-" then lex.drop 1 else lex
  let mantissa := (body.toList.takeWhile (fun c => c != 'e' && c != 'E'))
  mantissa.all (fun c => c == '0' || c == '.')

/-- JavaScript truthiness of a decoded JSON value. -/
def truthy : Json → Bool
  | .null => false
  | .bool b => b
  | .num lex => !(numLexIsZero lex)
  | .str s => !(s == "")
  | .arr _ => true
  | .obj _ => true

/-! ## Message classification (StdioTransport.isNotification / isValidRequest)

framing.ts lines 509-517 and 547-555, applied in the order of
`handleMessage` (line 423: notification test first, then request test). -/

/-- `message.jsonrpc === "2.0"`. -/
def jsonrpcIs20 : Option Json → Bool
  | some (.str s) => s == "2.0"
  | _ => false

/-- `typeof message.method === "string" && message.method.length > 0`. -/
def methodNonEmptyString : Option Json → Bool
  | some (.str s) => 0 < s.length
  | _ => false

/-- `message.id === undefined || message.id === null`. -/
def idAbsentOrNull : Option Json → Bool
  | none => true
  | some .null => true
  | _ => false

/-- `typeof id === "number" || typeof id === "string" || id === null`. -/
def idIsStrNumOrNull : Option Json → Bool
  | some (.num _) => true
  | some (.str _) => true
  | some .null => true
  | _ => false

/-- `StdioTransport.isNotification` (framing.ts lines 509-517). -/
def isNotification (m : Json) : Bool :=
  truthy m &&
  jsonrpcIs20 (getField m "jsonrpc") &&
  methodNonEmptyString (getField m "method") &&
  idAbsentOrNull (getField m "id")

/-- `StdioTransport.isValidRequest` (framing.ts lines 547-555). -/
def isValidRequest (m : Json) : Bool :=
  truthy m &&
  jsonrpcIs20 (getField m "jsonrpc") &&
  methodNonEmptyString (getField m "method") &&
  idIsStrNumOrNull (getField m "id")

inductive MsgClass where
  | request : MsgClass
  | notification : MsgClass
  | invalid : MsgClass
deriving DecidableEq, Repr

/-- The classification `handleMessage` performs on each decoded message
(framing.ts lines 421-435): the notification test runs strictly before the
request test. -/
def classify (m : Json) : MsgClass :=
  if isNotification m then .notification
  else if isValidRequest m then .request
  else .invalid

/-- The classification as the spec words it (spec section 4.3): Notification
iff non-empty string `method` and the `id` key entirely absent; Request iff
non-empty string `method` and `id` present as string, number, or null;
Invalid otherwise.  Stated from the spec, for comparison with `classify`. -/
def specClassify (m : Json) : MsgClass :=
  if methodNonEmptyString (getField m "method") then
    match getField m "id" with
    | none => .notification
    | some .null => .request
    | some (.str _) => .request
    | some (.num _) => .request
    | some _ => .invalid
  else .invalid

/-- The classification the code actually implements, stated declaratively:
a message is first required to be truthy with `jsonrpc` equal to `"2.0"`
and a non-empty string `method`; then `id` absent *or null* makes it a
Notification, `id` a string or number makes it a Request, and any other
`id` value (or any failure of the preliminary requirements) is Invalid. -/
def amendedClassify (m : Json) : MsgClass :=
  if truthy m && jsonrpcIs20 (getField m "jsonrpc") &&
      methodNonEmptyString (getField m "method") then
    if idAbsentOrNull (getField m "id") then .notification
    else if idIsStrNumOrNull (getField m "id") then .request
    else .invalid
  else .invalid

/-- C1 counterexample: the message
`\x7b"jsonrpc":"2.0","method":"ping","id":null\x7d` is classified by the
code as a Notification, while the spec's tagged union classifies it as a
Request — so the claim that classification follows the spec's union (and
that `id: null` yields a Request) is false on the code. -/
theorem c1_counterexample :
    classify (Json.obj [("jsonrpc", Json.str "2.0"), ("method", Json.str "ping"),
      ("id", Json.null)]) = MsgClass.notification ∧
    specClassify (Json.obj [("jsonrpc", Json.str "2.0"), ("method", Json.str "ping"),
      ("id", Json.null)]) = MsgClass.request := by
  constructor <;> rfl

/-- C1 (amended): for every decoded message, the classification performed by
`handleMessage` agrees with the amended tagged union: truthy value with
`jsonrpc === "2.0"` and non-empty string `method` required first; then `id`
absent or null ⇒ Notification, `id` string or number ⇒ Request, anything
else ⇒ Invalid. -/
theorem c1_classify_correct (m : Json) : classify m = amendedClassify m := by
  unfold classify amendedClassify isNotification isValidRequest
  cases h1 : truthy m <;>
    cases h2 : jsonrpcIs20 (getField m "jsonrpc") <;>
    cases h3 : methodNonEmptyString (getField m "method") <;>
    cases h4 : idAbsentOrNull (getField m "id") <;>
    cases h5 : idIsStrNumOrNull (getField m "id") <;>
    simp [h1, h2, h3, h4, h5]

/-! ## JSON-RPC error codes (framing.ts lines 189-196) -/

def PARSE_ERROR : Int := -32700
def INVALID_REQUEST : Int := -32600
def METHOD_NOT_FOUND : Int := -32601
def INVALID_PARAMS : Int := -32602
def INTERNAL_ERROR : Int := -32603
def PAYLOAD_TOO_LARGE : Int := -32001

/-! ## Transport configuration and state (framing.ts lines 149-154, 182-187, 256-285)

Sizes are naturals (the JS values on these paths are non-negative
integers well below 2^53, so no overflow modelling is needed). -/

inductive FramingMode where
  | contentLength : FramingMode
  | newline : FramingMode
  | auto : FramingMode
deriving DecidableEq, Repr

inductive Discipline where
  | contentLength : Discipline
  | newline : Discipline
deriving DecidableEq, Repr

structure TransportConfig where
  framing : FramingMode
  maxConcurrency : Nat
  maxMessageSize : Nat
  maxHeaderSize : Nat
deriving DecidableEq, Repr

/-- `DEFAULT_CONFIG` (framing.ts lines 182-187). -/
def DEFAULT_CONFIG : TransportConfig :=
  { framing := .auto
    maxConcurrency := 16
    maxMessageSize := 10 * 1024 * 1024
    maxHeaderSize := 4096 }

/-- Mutable connection state of `StdioTransport`
(framing.ts lines 263-266). -/
structure TState where
  buffer : List Char
  isRunning : Bool
  currentFraming : Discipline
  framingResolved : Bool
deriving DecidableEq, Repr

/-- State after the constructor ran (framing.ts lines 268-285) and `start`
set `isRunning` (line 292): `currentFraming` starts as content-length and
is flipped, with `framingResolved`, only when the configured mode is
`newline`. -/
def startState (cfg : TransportConfig) : TState :=
  { buffer := []
    isRunning := true
    currentFraming := if cfg.framing = .newline then .newline else .contentLength
    framingResolved := cfg.framing == .newline }

/-! ## Character-level helpers -/

/-- JavaScript whitespace (the `\s` class and `trimStart`), restricted to
the code points that can occur in the byte streams the claims quantify
over. -/
def isJsWs (c : Char) : Bool :=
  c == ' ' || c == '\t' || c == '\n' || c == '\r' ||
  c == '\x0b' || c == '\x0c' || c == Char.ofNat 0xa0 || c == Char.ofNat 0xfeff

/-- `pat` is a prefix of `l` (character-exact, like `String.startsWith`). -/
def startsWithL : List Char → List Char → Bool
  | [], _ => true
  | _ :: _, [] => false
  | p :: ps, c :: cs => p == c && startsWithL ps cs

/-- Case-insensitive variant (the `/i` flag of the header regex). -/
def startsWithCI : List Char → List Char → Bool
  | [], _ => true
  | _ :: _, [] => false
  | p :: ps, c :: cs => p.toLower == c.toLower && startsWithCI ps cs

/-- The header/body separator `"\r\n\r\n"`. -/
def sepChars : List Char := ['\r', '\n', '\r', '\n']

/-- `String.indexOf("\r\n\r\n")`: index of the first occurrence, if any. -/
def findSep : List Char → Option Nat
  | [] => none
  | c :: rest =>
    if startsWithL sepChars (c :: rest) then some 0
    else (findSep rest).map (· + 1)

def clKey : List Char := "Content-Length:".data

def digitsToNat (ds : List Char) : Nat :=
  ds.foldl (fun acc c => acc * 10 + (c.toNat - '0'.toNat)) 0

/-- The digits group of `/Content-Length:\s*(\d+)/i` when the pattern
matches at the start of `s` (text after the key): skip whitespace, then
require at least one ASCII digit; the capture is the maximal digit run.
`parseInt(·, 10)` of a digit run is exact on these paths, so the value is
a `Nat` (the regex cannot produce a negative or non-numeric capture, which
is why the code's `Number.isFinite`/negative guards are unreachable). -/
def digitsAfterWs (s : List Char) : Option Nat :=
  match (s.dropWhile isJsWs).takeWhile Char.isDigit with
  | [] => none
  | ds => some (digitsToNat ds)

/-- `/Content-Length:\s*(\d+)/i.exec(header)`: scan for the first position
where the case-insensitive key is followed by optional whitespace and at
least one digit; on a partial match the regex resumes at the next start
position. -/
def parseContentLength : List Char → Option Nat
  | [] => none
  | c :: rest =>
    if startsWithCI clKey (c :: rest) then
      match digitsAfterWs ((c :: rest).drop clKey.length) with
      | some n => some n
      | none => parseContentLength rest
    else parseContentLength rest

/-! ## Frame extraction -/

/-- What one pass of the frame reader can produce: an extracted frame
payload handed to `handleMessage`, or a `sendError(null, code, message)`
call — which, the id being null, only logs and writes nothing outbound
(framing.ts lines 493-507). -/
inductive FrameEvent where
  | frame (payload : List Char) : FrameEvent
  | errEvent (code : Int) (msg : String) : FrameEvent
deriving DecidableEq, Repr

/-- The DoS-guard event that also clears the buffer
(framing.ts lines 357-360). -/
def headerDiscard : FrameEvent := .errEvent PAYLOAD_TOO_LARGE "Header too large"

/-- `StdioTransport.processContentLengthFraming` (framing.ts lines
353-389), written with explicit fuel so that it is structural; one unit of
fuel per `while` iteration, and every continuing iteration consumes at
least the 4 separator characters, so `buffer.length` units always
suffice. -/
def procCLAux (cfg : TransportConfig) : Nat → List Char → List FrameEvent × List Char
  | 0, b => ([], b)
  | fuel + 1, b =>
    match findSep b with
    | none =>
      if cfg.maxHeaderSize < b.length then ([headerDiscard], [])
      else ([], b)
    | some i =>
      match parseContentLength (b.take i) with
      | none =>
        let r := procCLAux cfg fuel (b.drop (i + 4))
        (.errEvent PARSE_ERROR "Missing Content-Length header" :: r.1, r.2)
      | some n =>
        if cfg.maxMessageSize < n then
          let r := procCLAux cfg fuel (b.drop (i + 4))
          (.errEvent PAYLOAD_TOO_LARGE "Invalid Content-Length" :: r.1, r.2)
        else if b.length < i + 4 + n then ([], b)
        else
          let r := procCLAux cfg fuel (b.drop (i + 4 + n))
          (.frame ((b.drop (i + 4)).take n) :: r.1, r.2)

def processContentLengthFraming (cfg : TransportConfig) (b : List Char) :
    List FrameEvent × List Char :=
  procCLAux cfg b.length b

/-- `String.split("\n")` (JavaScript semantics: `"".split` is `[""]`,
a trailing newline yields a trailing empty segment). -/
def splitNl : List Char → List (List Char)
  | [] => [[]]
  | c :: rest =>
    if c = '\n' then [] :: splitNl rest
    else
      match splitNl rest with
      | [] => [[c]]
      | l :: ls => (c :: l) :: ls

/-- `String.trim`. -/
def trimL (l : List Char) : List Char :=
  ((l.dropWhile isJsWs).reverse.dropWhile isJsWs).reverse

/-- UTF-8 byte count (`Buffer.byteLength(s, "utf8")`). -/
def utf8Len (l : List Char) : Nat := (l.map Char.utf8Size).foldl (· + ·) 0

/-- Per-line processing of `processNewlineFraming` (framing.ts lines
395-408): trim, skip empty, size-check, else yield the frame. -/
def lineEvents (cfg : TransportConfig) (line : List Char) : List FrameEvent :=
  let trimmed := trimL line
  if trimmed = [] then []
  else if cfg.maxMessageSize < utf8Len trimmed then
    [.errEvent PAYLOAD_TOO_LARGE "Message too large"]
  else [.frame trimmed]

/-- `StdioTransport.processNewlineFraming` (framing.ts lines 391-409):
split on newline, keep the last (possibly partial) segment as the new
buffer, process every complete line. -/
def processNewlineFraming (cfg : TransportConfig) (b : List Char) :
    List FrameEvent × List Char :=
  (((splitNl b).dropLast).flatMap (lineEvents cfg), ((splitNl b).getLast?).getD [])

/-- `StdioTransport.processBuffer` (framing.ts lines 332-351):
auto-detection runs only while unresolved and the configured mode is
`auto`; the header-prefix check is evaluated strictly before the
JSON-start check; an undecided buffer is retained untouched. -/
def detectFraming (cfg : TransportConfig) (st : TState) : Option TState :=
  if ¬ st.framingResolved ∧ cfg.framing = .auto then
    if startsWithL clKey (st.buffer.dropWhile isJsWs) then
      some { st with currentFraming := .contentLength, framingResolved := true }
    else if startsWithL [Char.ofNat 123] (st.buffer.dropWhile isJsWs) ∨
        startsWithL ['['] (st.buffer.dropWhile isJsWs) then
      some { st with currentFraming := .newline, framingResolved := true }
    else none
  else some st

def processBuffer (cfg : TransportConfig) (st : TState) : TState × List FrameEvent :=
  match detectFraming cfg st with
  | none => (st, [])
  | some st1 =>
    if st1.currentFraming = .contentLength then
      ({ st1 with buffer := (processContentLengthFraming cfg st1.buffer).2 },
       (processContentLengthFraming cfg st1.buffer).1)
    else
      ({ st1 with buffer := (processNewlineFraming cfg st1.buffer).2 },
       (processNewlineFraming cfg st1.buffer).1)

/-- One `data` callback (framing.ts lines 295-303): append the chunk, then
process the buffer. -/
def feedChunk (cfg : TransportConfig) (st : TState) (chunk : List Char) :
    TState × List FrameEvent :=
  processBuffer cfg { st with buffer := st.buffer ++ chunk }

/-- Feed a sequence of chunks in order, concatenating the events. -/
def runChunks (cfg : TransportConfig) (st : TState) :
    List (List Char) → TState × List FrameEvent
  | [] => (st, [])
  | c :: cs =>
    let r := feedChunk cfg st c
    let r2 := runChunks cfg r.1 cs
    (r2.1, r.2 ++ r2.2)

/-- `StdioTransport.stop` (framing.ts lines 319-330): no-op when not
running; otherwise clear the buffer, re-arm `framingResolved` exactly when
the configured mode is `auto`, and reset `currentFraming` to
content-length unless the configured mode is `newline`. -/
def stopTransport (cfg : TransportConfig) (st : TState) : TState :=
  if st.isRunning = false then st
  else
    { buffer := []
      isRunning := false
      framingResolved := !(cfg.framing == .auto)
      currentFraming :=
        if ¬ cfg.framing = .newline then .contentLength else st.currentFraming }

/-! ### Helper lemmas about `startsWithL` and `findSep` -/

theorem startsWithL_length {p l : List Char} (h : startsWithL p l = true) :
    p.length ≤ l.length := by
  induction p generalizing l with
  | nil => simp
  | cons a ps ih =>
    cases l with
    | nil => simp [startsWithL] at h
    | cons c cs =>
      simp only [startsWithL, Bool.and_eq_true] at h
      have := ih h.2
      simp only [List.length_cons]
      omega

theorem startsWithL_append_of_le {p l : List Char} (t : List Char)
    (h : p.length ≤ l.length) : startsWithL p (l ++ t) = startsWithL p l := by
  induction p generalizing l with
  | nil => simp [startsWithL]
  | cons a ps ih =>
    cases l with
    | nil => simp at h
    | cons c cs =>
      rw [List.cons_append]
      simp only [startsWithL]
      rw [ih]
      simpa using h

theorem startsWithL_append_right {p l : List Char} (t : List Char)
    (h : startsWithL p l = true) : startsWithL p (l ++ t) = true := by
  rw [startsWithL_append_of_le t (startsWithL_length h)]
  exact h

theorem findSep_some_le {b : List Char} {i : Nat} (h : findSep b = some i) :
    i + 4 ≤ b.length := by
  induction b generalizing i with
  | nil => simp [findSep] at h
  | cons c cs ih =>
    simp only [findSep] at h
    by_cases hs : startsWithL sepChars (c :: cs) = true
    · rw [if_pos hs] at h
      obtain rfl : i = 0 := by simpa using h.symm
      have := startsWithL_length hs
      simpa [sepChars] using this
    · rw [if_neg hs] at h
      cases hr : findSep cs with
      | none => rw [hr] at h; simp at h
      | some j =>
        rw [hr] at h
        obtain rfl : i = j + 1 := by simpa using h.symm
        have := ih hr
        simp only [List.length_cons]
        omega

theorem findSep_append {b t : List Char} {i : Nat} (h : findSep b = some i) :
    findSep (b ++ t) = some i := by
  induction b generalizing i with
  | nil => simp [findSep] at h
  | cons c cs ih =>
    have h4 : sepChars.length = 4 := rfl
    have hlen : sepChars.length ≤ (c :: cs).length := by
      have := findSep_some_le h
      simp only [List.length_cons] at this ⊢
      omega
    have hsw : startsWithL sepChars ((c :: cs) ++ t) = startsWithL sepChars (c :: cs) :=
      startsWithL_append_of_le t hlen
    simp only [findSep] at h
    rw [List.cons_append]
    simp only [findSep]
    rw [← List.cons_append, hsw]
    by_cases hs : startsWithL sepChars (c :: cs) = true
    · rw [if_pos hs] at h ⊢
      exact h
    · rw [if_neg hs] at h ⊢
      cases hr : findSep cs with
      | none => rw [hr] at h; simp at h
      | some j =>
        rw [hr] at h
        rw [ih hr]
        simpa using h

/-! ### Fuel irrelevance and unfolding lemmas for the content-length loop -/

theorem procCLAux_fuel (cfg : TransportConfig) :
    ∀ (f₁ f₂ : Nat) (b : List Char), b.length ≤ f₁ → b.length ≤ f₂ →
      procCLAux cfg f₁ b = procCLAux cfg f₂ b := by
  intro f₁
  induction f₁ with
  | zero =>
    intro f₂ b h1 _
    have hb : b = [] := List.length_eq_zero.mp (Nat.le_zero.mp h1)
    subst hb
    cases f₂ with
    | zero => rfl
    | succ m => simp [procCLAux, findSep]
  | succ k ih =>
    intro f₂ b h1 h2
    cases f₂ with
    | zero =>
      have hb : b = [] := List.length_eq_zero.mp (Nat.le_zero.mp h2)
      subst hb
      simp [procCLAux, findSep]
    | succ m =>
      simp only [procCLAux]
      cases hsep : findSep b with
      | none => rfl
      | some i =>
        dsimp only
        have hi : i + 4 ≤ b.length := findSep_some_le hsep
        cases hp : parseContentLength (b.take i) with
        | none =>
          dsimp only
          rw [ih m (b.drop (i + 4)) (by simp only [List.length_drop]; omega) (by simp only [List.length_drop]; omega)]
        | some n =>
          dsimp only
          by_cases hn : cfg.maxMessageSize < n
          · rw [if_pos hn, if_pos hn,
              ih m (b.drop (i + 4)) (by simp only [List.length_drop]; omega) (by simp only [List.length_drop]; omega)]
          · rw [if_neg hn, if_neg hn]
            by_cases hl : b.length < i + 4 + n
            · rw [if_pos hl, if_pos hl]
            · rw [if_neg hl, if_neg hl,
                ih m (b.drop (i + 4 + n)) (by simp only [List.length_drop]; omega) (by simp only [List.length_drop]; omega)]

theorem procCL_empty (cfg : TransportConfig) :
    processContentLengthFraming cfg [] = ([], []) := rfl

theorem procCL_nosep (cfg : TransportConfig) {b : List Char}
    (h : findSep b = none) :
    processContentLengthFraming cfg b =
      if cfg.maxHeaderSize < b.length then ([headerDiscard], []) else ([], b) := by
  unfold processContentLengthFraming
  cases hb : b with
  | nil => subst hb; simp [procCLAux, findSep]
  | cons c cs =>
    subst hb
    simp only [List.length_cons, procCLAux]
    rw [h]

theorem procCL_badheader (cfg : TransportConfig) {b : List Char} {i : Nat}
    (h : findSep b = some i) (hp : parseContentLength (b.take i) = none) :
    processContentLengthFraming cfg b =
      (FrameEvent.errEvent PARSE_ERROR "Missing Content-Length header" ::
         (processContentLengthFraming cfg (b.drop (i + 4))).1,
       (processContentLengthFraming cfg (b.drop (i + 4))).2) := by
  have hi : i + 4 ≤ b.length := findSep_some_le h
  unfold processContentLengthFraming
  cases hb : b with
  | nil => subst hb; simp [findSep] at h
  | cons c cs =>
    subst hb
    simp only [List.length_cons, procCLAux]
    rw [h]
    dsimp only
    rw [hp]
    dsimp only
    rw [procCLAux_fuel cfg cs.length ((c :: cs).drop (i + 4)).length
      ((c :: cs).drop (i + 4)) (by simp only [List.length_drop, List.length_cons]; omega) (le_refl _)]

theorem procCL_oversize (cfg : TransportConfig) {b : List Char} {i n : Nat}
    (h : findSep b = some i) (hp : parseContentLength (b.take i) = some n)
    (hn : cfg.maxMessageSize < n) :
    processContentLengthFraming cfg b =
      (FrameEvent.errEvent PAYLOAD_TOO_LARGE "Invalid Content-Length" ::
         (processContentLengthFraming cfg (b.drop (i + 4))).1,
       (processContentLengthFraming cfg (b.drop (i + 4))).2) := by
  have hi : i + 4 ≤ b.length := findSep_some_le h
  unfold processContentLengthFraming
  cases hb : b with
  | nil => subst hb; simp [findSep] at h
  | cons c cs =>
    subst hb
    simp only [List.length_cons, procCLAux]
    rw [h]
    dsimp only
    rw [hp]
    dsimp only
    rw [if_pos hn]
    rw [procCLAux_fuel cfg cs.length ((c :: cs).drop (i + 4)).length
      ((c :: cs).drop (i + 4)) (by simp only [List.length_drop, List.length_cons]; omega) (le_refl _)]

theorem procCL_wait (cfg : TransportConfig) {b : List Char} {i n : Nat}
    (h : findSep b = some i) (hp : parseContentLength (b.take i) = some n)
    (hn : ¬ cfg.maxMessageSize < n) (hl : b.length < i + 4 + n) :
    processContentLengthFraming cfg b = ([], b) := by
  unfold processContentLengthFraming
  cases hb : b with
  | nil => subst hb; simp [findSep] at h
  | cons c cs =>
    subst hb
    simp only [List.length_cons, procCLAux]
    rw [h]
    dsimp only
    rw [hp]
    dsimp only
    rw [if_neg hn, if_pos (by simpa using hl)]

theorem procCL_frame (cfg : TransportConfig) {b : List Char} {i n : Nat}
    (h : findSep b = some i) (hp : parseContentLength (b.take i) = some n)
    (hn : ¬ cfg.maxMessageSize < n) (hl : ¬ b.length < i + 4 + n) :
    processContentLengthFraming cfg b =
      (FrameEvent.frame ((b.drop (i + 4)).take n) ::
         (processContentLengthFraming cfg (b.drop (i + 4 + n))).1,
       (processContentLengthFraming cfg (b.drop (i + 4 + n))).2) := by
  have hi : i + 4 ≤ b.length := findSep_some_le h
  unfold processContentLengthFraming
  cases hb : b with
  | nil => subst hb; simp [findSep] at h
  | cons c cs =>
    subst hb
    simp only [List.length_cons, procCLAux]
    rw [h]
    dsimp only
    rw [hp]
    dsimp only
    rw [if_neg hn, if_neg (by simpa using hl)]
    rw [procCLAux_fuel cfg cs.length ((c :: cs).drop (i + 4 + n)).length
      ((c :: cs).drop (i + 4 + n)) (by simp only [List.length_drop, List.length_cons]; omega) (le_refl _)]

/-! ### Chunk-composition for content-length framing

Processing `b` and then processing the retained remainder with more input
appended agrees with processing `b ++ t` at once — provided processing of
`b` did not hit the oversized-header discard, which clears the buffer and
is the one chunking-sensitive path. -/

theorem procCL_append_aux (cfg : TransportConfig) :
    ∀ (k : Nat) (b t : List Char), b.length ≤ k →
      headerDiscard ∉ (processContentLengthFraming cfg b).1 →
      processContentLengthFraming cfg (b ++ t) =
        ((processContentLengthFraming cfg b).1 ++
           (processContentLengthFraming cfg
              ((processContentLengthFraming cfg b).2 ++ t)).1,
         (processContentLengthFraming cfg
            ((processContentLengthFraming cfg b).2 ++ t)).2) := by
  intro k
  induction k with
  | zero =>
    intro b t hb _
    have hb0 : b = [] := List.length_eq_zero.mp (Nat.le_zero.mp hb)
    subst hb0
    simp [procCL_empty]
  | succ k ih =>
    intro b t hb hnd
    cases hsep : findSep b with
    | none =>
      by_cases hlen : cfg.maxHeaderSize < b.length
      · exfalso
        rw [procCL_nosep cfg hsep, if_pos hlen] at hnd
        simp at hnd
      · rw [procCL_nosep cfg hsep, if_neg hlen]
        simp
    | some i =>
      have hi : i + 4 ≤ b.length := findSep_some_le hsep
      have hsep2 : findSep (b ++ t) = some i := findSep_append hsep
      have htake : (b ++ t).take i = b.take i :=
        List.take_append_of_le_length (by omega)
      have hdrop : (b ++ t).drop (i + 4) = b.drop (i + 4) ++ t :=
        List.drop_append_of_le_length hi
      cases hp : parseContentLength (b.take i) with
      | none =>
        have hp2 : parseContentLength ((b ++ t).take i) = none := by
          rw [htake]; exact hp
        have hnd' : headerDiscard ∉
            (processContentLengthFraming cfg (b.drop (i + 4))).1 := by
          rw [procCL_badheader cfg hsep hp] at hnd
          simp only [List.mem_cons, not_or] at hnd
          exact hnd.2
        rw [procCL_badheader cfg hsep2 hp2, hdrop,
          ih (b.drop (i + 4)) t (by simp only [List.length_drop]; omega) hnd',
          procCL_badheader cfg hsep hp]
        simp
      | some n =>
        have hp2 : parseContentLength ((b ++ t).take i) = some n := by
          rw [htake]; exact hp
        by_cases hn : cfg.maxMessageSize < n
        · have hnd' : headerDiscard ∉
              (processContentLengthFraming cfg (b.drop (i + 4))).1 := by
            rw [procCL_oversize cfg hsep hp hn] at hnd
            simp only [List.mem_cons, not_or] at hnd
            exact hnd.2
          rw [procCL_oversize cfg hsep2 hp2 hn, hdrop,
            ih (b.drop (i + 4)) t (by simp only [List.length_drop]; omega) hnd',
            procCL_oversize cfg hsep hp hn]
          simp
        · by_cases hl : b.length < i + 4 + n
          · rw [procCL_wait cfg hsep hp hn hl]
            simp
          · have hl2 : ¬ (b ++ t).length < i + 4 + n := by
              simp only [List.length_append]
              omega
            have hpay : ((b ++ t).drop (i + 4)).take n = (b.drop (i + 4)).take n := by
              rw [hdrop]
              exact List.take_append_of_le_length
                (by simp only [List.length_drop]; omega)
            have hdrop2 : (b ++ t).drop (i + 4 + n) = b.drop (i + 4 + n) ++ t :=
              List.drop_append_of_le_length (by omega)
            have hnd' : headerDiscard ∉
                (processContentLengthFraming cfg (b.drop (i + 4 + n))).1 := by
              rw [procCL_frame cfg hsep hp hn hl] at hnd
              simp only [List.mem_cons, not_or] at hnd
              exact hnd.2
            rw [procCL_frame cfg hsep2 hp2 hn hl2, hpay, hdrop2,
              ih (b.drop (i + 4 + n)) t (by simp only [List.length_drop]; omega) hnd',
              procCL_frame cfg hsep hp hn hl]
            simp

/-- Chunk-composition for the content-length reader. -/
theorem procCL_append (cfg : TransportConfig) (b t : List Char)
    (hnd : headerDiscard ∉ (processContentLengthFraming cfg b).1) :
    processContentLengthFraming cfg (b ++ t) =
      ((processContentLengthFraming cfg b).1 ++
         (processContentLengthFraming cfg
            ((processContentLengthFraming cfg b).2 ++ t)).1,
       (processContentLengthFraming cfg
          ((processContentLengthFraming cfg b).2 ++ t)).2) :=
  procCL_append_aux cfg b.length b t (le_refl _) hnd

/-! ### Chunk-composition for newline framing -/

theorem splitNl_ne_nil (b : List Char) : splitNl b ≠ [] := by
  cases b with
  | nil => simp [splitNl]
  | cons c cs =>
    simp only [splitNl]
    by_cases h : c = '\n'
    · simp [h]
    · rw [if_neg h]
      cases hr : splitNl cs with
      | nil => simp
      | cons l ls => simp

theorem splitNl_mem_no_nl : ∀ {b l : List Char}, l ∈ splitNl b → '\n' ∉ l := by
  intro b
  induction b with
  | nil =>
    intro l hl
    simp [splitNl] at hl
    simp [hl]
  | cons c cs ih =>
    intro l hl
    simp only [splitNl] at hl
    by_cases h : c = '\n'
    · rw [if_pos h] at hl
      rcases List.mem_cons.mp hl with h1 | h1
      · simp [h1]
      · exact ih h1
    · rw [if_neg h] at hl
      cases hr : splitNl cs with
      | nil =>
        rw [hr] at hl
        simp at hl
        subst hl
        intro hmem
        simp at hmem
        exact h hmem.symm
      | cons x xs =>
        rw [hr] at hl
        rcases List.mem_cons.mp hl with h1 | h1
        · subst h1
          intro hmem
          rcases List.mem_cons.mp hmem with h2 | h2
          · exact h h2.symm
          · exact ih (hr ▸ List.mem_cons_self x xs) h2
        · exact ih (hr ▸ List.mem_cons_of_mem x h1)

theorem splitNl_of_no_nl {g : List Char} (h : '\n' ∉ g) : splitNl g = [g] := by
  induction g with
  | nil => rfl
  | cons c cs ih =>
    simp only [List.mem_cons, not_or] at h
    have hc : ¬ c = '\n' := fun hh => h.1 hh.symm
    simp only [splitNl, if_neg hc, ih h.2]

/-- Prepend `x` onto the first segment (used to glue split results). -/
def consFirst (x : List Char) : List (List Char) → List (List Char)
  | [] => [x]
  | y :: ys => (x ++ y) :: ys

theorem splitNl_append (a b : List Char) :
    splitNl (a ++ b) =
      (splitNl a).dropLast ++ consFirst ((splitNl a).getLast?.getD []) (splitNl b) := by
  induction a with
  | nil =>
    cases hsb : splitNl b with
    | nil => exact absurd hsb (splitNl_ne_nil b)
    | cons y ys => simp [splitNl, consFirst, hsb]
  | cons c cs ih =>
    by_cases h : c = '\n'
    · subst h
      rw [List.cons_append]
      simp only [splitNl, if_pos rfl]
      rw [ih]
      cases hsc : splitNl cs with
      | nil => exact absurd hsc (splitNl_ne_nil cs)
      | cons y ys => simp
    · rw [List.cons_append]
      simp only [splitNl, if_neg h]
      rw [ih]
      cases hsc : splitNl cs with
      | nil => exact absurd hsc (splitNl_ne_nil cs)
      | cons y ys =>
        cases ys with
        | nil =>
          cases hsb : splitNl b with
          | nil => exact absurd hsb (splitNl_ne_nil b)
          | cons z zs => simp [consFirst, hsb]
        | cons y2 ys2 => simp [consFirst]

/-- The retained buffer segment of a newline split never contains a
newline, so re-splitting it alone is trivial. -/
theorem splitNl_last_no_nl (b : List Char) :
    '\n' ∉ (splitNl b).getLast?.getD [] := by
  cases hg : (splitNl b).getLast? with
  | none =>
    rw [List.getLast?_eq_none_iff] at hg
    exact absurd hg (splitNl_ne_nil b)
  | some g =>
    simpa using splitNl_mem_no_nl (List.mem_of_mem_getLast? hg)

/-- Chunk-composition for the newline reader: unconditional. -/
theorem procNL_append (cfg : TransportConfig) (b t : List Char) :
    processNewlineFraming cfg (b ++ t) =
      ((processNewlineFraming cfg b).1 ++
         (processNewlineFraming cfg
            ((processNewlineFraming cfg b).2 ++ t)).1,
       (processNewlineFraming cfg
          ((processNewlineFraming cfg b).2 ++ t)).2) := by
  unfold processNewlineFraming
  have hg : splitNl ((splitNl b).getLast?.getD []) = [(splitNl b).getLast?.getD []] :=
    splitNl_of_no_nl (splitNl_last_no_nl b)
  have hgt : splitNl ((splitNl b).getLast?.getD [] ++ t) =
      consFirst ((splitNl b).getLast?.getD []) (splitNl t) := by
    rw [splitNl_append, hg]
    simp [consFirst]
  have hbt : splitNl (b ++ t) =
      (splitNl b).dropLast ++ splitNl ((splitNl b).getLast?.getD [] ++ t) := by
    rw [splitNl_append, hgt]
  have hne : splitNl ((splitNl b).getLast?.getD [] ++ t) ≠ [] :=
    splitNl_ne_nil _
  rw [hbt, List.dropLast_append_of_ne_nil _ hne, List.flatMap_append,
    List.getLast?_append_of_ne_nil _ hne]

/-! ### Chunk-composition through auto-detection (`processBuffer`) -/

theorem startsWithL_ne_nil {p : Char} {ps l : List Char}
    (h : startsWithL (p :: ps) l = true) : l ≠ [] := by
  cases l with
  | nil => simp [startsWithL] at h
  | cons c cs => simp

theorem startsWithL_single {c : Char} {l : List Char}
    (h : startsWithL [c] l = true) : ∃ rest, l = c :: rest := by
  cases l with
  | nil => simp [startsWithL] at h
  | cons d ds =>
    simp [startsWithL] at h
    exact ⟨ds, by rw [h]⟩

theorem dropWhile_append_ne_nil {p : Char → Bool} {a : List Char} (t : List Char)
    (h : a.dropWhile p ≠ []) :
    (a ++ t).dropWhile p = a.dropWhile p ++ t := by
  rw [List.dropWhile_append, if_neg]
  simp only [List.isEmpty_iff]
  exact h

theorem clKey_cons : clKey = 'C' :: "ontent-Length:".data := rfl

/-- A buffer whose first non-whitespace character is the opening brace or
bracket cannot start with the `Content-Length:` token. -/
theorem clKey_not_on_json {x : Char} {rest : List Char}
    (hx : x = Char.ofNat 123 ∨ x = '[') :
    startsWithL clKey (x :: rest) = false := by
  rw [clKey_cons]
  rcases hx with hx | hx <;> subst hx <;> simp [startsWithL]

/-- `processBuffer` once detection is not in play (already resolved, or a
non-auto configured mode): plain dispatch on the current discipline. -/
theorem processBuffer_resolved (cfg : TransportConfig) (st : TState)
    (h : ¬ (¬ st.framingResolved = true ∧ cfg.framing = .auto)) :
    processBuffer cfg st =
      if st.currentFraming = .contentLength then
        ({ st with buffer := (processContentLengthFraming cfg st.buffer).2 },
         (processContentLengthFraming cfg st.buffer).1)
      else
        ({ st with buffer := (processNewlineFraming cfg st.buffer).2 },
         (processNewlineFraming cfg st.buffer).1) := by
  unfold processBuffer detectFraming
  rw [if_neg h]

/-- `processBuffer` when auto-detection resolves to content-length. -/
theorem processBuffer_detect_cl (cfg : TransportConfig) (st : TState)
    (h : ¬ st.framingResolved = true ∧ cfg.framing = .auto)
    (hcl : startsWithL clKey (st.buffer.dropWhile isJsWs) = true) :
    processBuffer cfg st =
      ({ st with
           buffer := (processContentLengthFraming cfg st.buffer).2
           currentFraming := .contentLength
           framingResolved := true },
       (processContentLengthFraming cfg st.buffer).1) := by
  unfold processBuffer detectFraming
  rw [if_pos h, if_pos hcl]
  rfl

/-- `processBuffer` when auto-detection resolves to newline. -/
theorem processBuffer_detect_nl (cfg : TransportConfig) (st : TState)
    (h : ¬ st.framingResolved = true ∧ cfg.framing = .auto)
    (hcl : ¬ startsWithL clKey (st.buffer.dropWhile isJsWs) = true)
    (hjs : startsWithL [Char.ofNat 123] (st.buffer.dropWhile isJsWs) ∨
      startsWithL ['['] (st.buffer.dropWhile isJsWs)) :
    processBuffer cfg st =
      ({ st with
           buffer := (processNewlineFraming cfg st.buffer).2
           currentFraming := .newline
           framingResolved := true },
       (processNewlineFraming cfg st.buffer).1) := by
  unfold processBuffer detectFraming
  rw [if_pos h, if_neg hcl, if_pos hjs]
  rfl

/-- `processBuffer` when auto-detection stays undecided: nothing happens. -/
theorem processBuffer_undecided (cfg : TransportConfig) (st : TState)
    (h : ¬ st.framingResolved = true ∧ cfg.framing = .auto)
    (hcl : ¬ startsWithL clKey (st.buffer.dropWhile isJsWs) = true)
    (hjs : ¬ (startsWithL [Char.ofNat 123] (st.buffer.dropWhile isJsWs) ∨
      startsWithL ['['] (st.buffer.dropWhile isJsWs))) :
    processBuffer cfg st = (st, []) := by
  unfold processBuffer detectFraming
  rw [if_pos h, if_neg hcl, if_neg hjs]

/-- Feeding `t₁` and then `t₂` produces the same events (concatenated) and
the same final state as feeding `t₁ ++ t₂` at once, provided the first feed
did not hit the oversized-header discard (the one chunking-sensitive
path). -/
theorem feed_compose (cfg : TransportConfig) (st : TState) (t₁ t₂ : List Char)
    (hnd : headerDiscard ∉ (feedChunk cfg st t₁).2) :
    feedChunk cfg st (t₁ ++ t₂) =
      ((feedChunk cfg (feedChunk cfg st t₁).1 t₂).1,
       (feedChunk cfg st t₁).2 ++ (feedChunk cfg (feedChunk cfg st t₁).1 t₂).2) := by
  by_cases hres : ¬ st.framingResolved = true ∧ cfg.framing = FramingMode.auto
  · by_cases hcl : startsWithL clKey ((st.buffer ++ t₁).dropWhile isJsWs) = true
    · -- auto-detection resolves the first feed to content-length
      have hne : (st.buffer ++ t₁).dropWhile isJsWs ≠ [] := by
        rw [clKey_cons] at hcl
        exact startsWithL_ne_nil hcl
      have hdw : ((st.buffer ++ t₁) ++ t₂).dropWhile isJsWs =
          (st.buffer ++ t₁).dropWhile isJsWs ++ t₂ := dropWhile_append_ne_nil t₂ hne
      have hcl2 : startsWithL clKey (((st.buffer ++ t₁) ++ t₂).dropWhile isJsWs) = true := by
        rw [hdw]
        exact startsWithL_append_right t₂ hcl
      have e1 : feedChunk cfg st t₁ =
          ({ st with
               buffer := (processContentLengthFraming cfg (st.buffer ++ t₁)).2
               currentFraming := .contentLength
               framingResolved := true },
           (processContentLengthFraming cfg (st.buffer ++ t₁)).1) :=
        processBuffer_detect_cl cfg _ hres hcl
      have hnd' : headerDiscard ∉
          (processContentLengthFraming cfg (st.buffer ++ t₁)).1 := by
        rw [e1] at hnd
        exact hnd
      have e2 : feedChunk cfg
          ({ st with
               buffer := (processContentLengthFraming cfg (st.buffer ++ t₁)).2
               currentFraming := .contentLength
               framingResolved := true } : TState) t₂ =
          ({ st with
               buffer := (processContentLengthFraming cfg
                 ((processContentLengthFraming cfg (st.buffer ++ t₁)).2 ++ t₂)).2
               currentFraming := .contentLength
               framingResolved := true },
           (processContentLengthFraming cfg
             ((processContentLengthFraming cfg (st.buffer ++ t₁)).2 ++ t₂)).1) := by
        unfold feedChunk
        rw [processBuffer_resolved cfg _ (by simp), if_pos rfl]
      rw [e1]
      dsimp only
      rw [e2]
      unfold feedChunk
      rw [← List.append_assoc,
        processBuffer_detect_cl cfg { st with buffer := st.buffer ++ t₁ ++ t₂ } hres hcl2,
        procCL_append cfg (st.buffer ++ t₁) t₂ hnd']
    · by_cases hjs : startsWithL [Char.ofNat 123] ((st.buffer ++ t₁).dropWhile isJsWs) = true ∨
        startsWithL ['['] ((st.buffer ++ t₁).dropWhile isJsWs) = true
      · -- auto-detection resolves the first feed to newline
        have hne : (st.buffer ++ t₁).dropWhile isJsWs ≠ [] := by
          rcases hjs with hj | hj <;> exact startsWithL_ne_nil hj
        have hdw : ((st.buffer ++ t₁) ++ t₂).dropWhile isJsWs =
            (st.buffer ++ t₁).dropWhile isJsWs ++ t₂ := dropWhile_append_ne_nil t₂ hne
        have hhead : ∃ x rest, (st.buffer ++ t₁).dropWhile isJsWs = x :: rest ∧
            (x = Char.ofNat 123 ∨ x = '[') := by
          rcases hjs with hj | hj
          · obtain ⟨rest, hrest⟩ := startsWithL_single hj
            exact ⟨_, rest, hrest, Or.inl rfl⟩
          · obtain ⟨rest, hrest⟩ := startsWithL_single hj
            exact ⟨_, rest, hrest, Or.inr rfl⟩
        have hcl2 : ¬ startsWithL clKey (((st.buffer ++ t₁) ++ t₂).dropWhile isJsWs) = true := by
          obtain ⟨x, rest, hx, hor⟩ := hhead
          rw [hdw, hx, List.cons_append, clKey_not_on_json hor]
          simp
        have hjs2 : startsWithL [Char.ofNat 123] (((st.buffer ++ t₁) ++ t₂).dropWhile isJsWs) = true ∨
            startsWithL ['['] (((st.buffer ++ t₁) ++ t₂).dropWhile isJsWs) = true := by
          rw [hdw]
          rcases hjs with hj | hj
          · exact Or.inl (startsWithL_append_right t₂ hj)
          · exact Or.inr (startsWithL_append_right t₂ hj)
        have e1 : feedChunk cfg st t₁ =
            ({ st with
                 buffer := (processNewlineFraming cfg (st.buffer ++ t₁)).2
                 currentFraming := .newline
                 framingResolved := true },
             (processNewlineFraming cfg (st.buffer ++ t₁)).1) :=
          processBuffer_detect_nl cfg _ hres hcl hjs
        have e2 : feedChunk cfg
            ({ st with
                 buffer := (processNewlineFraming cfg (st.buffer ++ t₁)).2
                 currentFraming := .newline
                 framingResolved := true } : TState) t₂ =
            ({ st with
                 buffer := (processNewlineFraming cfg
                   ((processNewlineFraming cfg (st.buffer ++ t₁)).2 ++ t₂)).2
                 currentFraming := .newline
                 framingResolved := true },
             (processNewlineFraming cfg
               ((processNewlineFraming cfg (st.buffer ++ t₁)).2 ++ t₂)).1) := by
          unfold feedChunk
          rw [processBuffer_resolved cfg _ (by simp), if_neg (by simp)]
        rw [e1]
        dsimp only
        rw [e2]
        unfold feedChunk
        rw [← List.append_assoc,
          processBuffer_detect_nl cfg { st with buffer := st.buffer ++ t₁ ++ t₂ } hres hcl2 hjs2,
          procNL_append cfg (st.buffer ++ t₁) t₂]
      · -- detection stays undecided on the first feed: buffer retained
        have e1 : feedChunk cfg st t₁ = ({ st with buffer := st.buffer ++ t₁ }, []) :=
          processBuffer_undecided cfg _ hres hcl hjs
        rw [e1]
        dsimp only
        unfold feedChunk
        rw [← List.append_assoc]
        simp
  · -- no detection: dispatch directly on the configured/current discipline
    have e1 : feedChunk cfg st t₁ =
        if st.currentFraming = .contentLength then
          ({ st with buffer := (processContentLengthFraming cfg (st.buffer ++ t₁)).2 },
           (processContentLengthFraming cfg (st.buffer ++ t₁)).1)
        else
          ({ st with buffer := (processNewlineFraming cfg (st.buffer ++ t₁)).2 },
           (processNewlineFraming cfg (st.buffer ++ t₁)).1) :=
      processBuffer_resolved cfg _ hres
    by_cases hcf : st.currentFraming = Discipline.contentLength
    · rw [if_pos hcf] at e1
      have hnd' : headerDiscard ∉
          (processContentLengthFraming cfg (st.buffer ++ t₁)).1 := by
        rw [e1] at hnd
        exact hnd
      have e2 : feedChunk cfg
          ({ st with buffer := (processContentLengthFraming cfg (st.buffer ++ t₁)).2 } : TState) t₂ =
          ({ st with buffer := (processContentLengthFraming cfg
               ((processContentLengthFraming cfg (st.buffer ++ t₁)).2 ++ t₂)).2 },
           (processContentLengthFraming cfg
             ((processContentLengthFraming cfg (st.buffer ++ t₁)).2 ++ t₂)).1) := by
        unfold feedChunk
        rw [processBuffer_resolved cfg
          { st with buffer := (processContentLengthFraming cfg (st.buffer ++ t₁)).2 ++ t₂ }
          hres, if_pos hcf]
      rw [e1]
      dsimp only
      rw [e2]
      unfold feedChunk
      rw [← List.append_assoc,
        processBuffer_resolved cfg { st with buffer := st.buffer ++ t₁ ++ t₂ } hres,
        if_pos hcf, procCL_append cfg (st.buffer ++ t₁) t₂ hnd']
    · rw [if_neg hcf] at e1
      have e2 : feedChunk cfg
          ({ st with buffer := (processNewlineFraming cfg (st.buffer ++ t₁)).2 } : TState) t₂ =
          ({ st with buffer := (processNewlineFraming cfg
               ((processNewlineFraming cfg (st.buffer ++ t₁)).2 ++ t₂)).2 },
           (processNewlineFraming cfg
             ((processNewlineFraming cfg (st.buffer ++ t₁)).2 ++ t₂)).1) := by
        unfold feedChunk
        rw [processBuffer_resolved cfg
          { st with buffer := (processNewlineFraming cfg (st.buffer ++ t₁)).2 ++ t₂ }
          hres, if_neg hcf]
      rw [e1]
      dsimp only
      rw [e2]
      unfold feedChunk
      rw [← List.append_assoc,
        processBuffer_resolved cfg { st with buffer := st.buffer ++ t₁ ++ t₂ } hres,
        if_neg hcf, procNL_append cfg (st.buffer ++ t₁) t₂]

/-! ### C3: re-chunking invariance -/

/-- The extracted frame payloads of an event sequence, in order. -/
def framesOf (evs : List FrameEvent) : List (List Char) :=
  evs.filterMap (fun e =>
    match e with
    | .frame p => some p
    | .errEvent _ _ => none)

theorem runChunks_eq_feed (cfg : TransportConfig) :
    ∀ (cs : List (List Char)) (st : TState) (c : List Char),
      headerDiscard ∉ (runChunks cfg st (c :: cs)).2 →
      runChunks cfg st (c :: cs) = feedChunk cfg st (c ++ cs.flatten) := by
  intro cs
  induction cs with
  | nil =>
    intro st c _
    simp [runChunks]
  | cons d ds ih =>
    intro st c hnd
    simp only [runChunks] at hnd ⊢
    simp only [List.mem_append, not_or] at hnd
    have hnd1 : headerDiscard ∉ (feedChunk cfg st c).2 := hnd.1
    have hnd2 : headerDiscard ∉ (runChunks cfg (feedChunk cfg st c).1 (d :: ds)).2 := by
      have := hnd.2
      simp only [runChunks, List.mem_append, not_or] at this ⊢
      exact this
    rw [List.flatten_cons, feed_compose cfg st c (d ++ ds.flatten) hnd1]
    have := ih (feedChunk cfg st c).1 d hnd2
    simp only [runChunks] at this
    rw [← this]

/-- C3 counterexample configuration: content-length framing with a small
configured max header size. -/
def c3cfg : TransportConfig :=
  { framing := .contentLength
    maxConcurrency := 16
    maxMessageSize := 100
    maxHeaderSize := 4 }

def c3chunk1 : List Char := "Conte".data
def c3chunk2 : List Char := "nt-Length: 1\r\n\r\nX".data

/-- C3 counterexample: with max header size 4, feeding
`"Content-Length: 1\r\n\r\nX"` in one chunk extracts the frame `"X"`, but
feeding it as `"Conte"` + the rest first trips the oversized-header guard
(which clears the buffer) and then extracts nothing — so re-chunking does
not always preserve the extracted frame sequence. -/
theorem c3_counterexample :
    framesOf (runChunks c3cfg (startState c3cfg) [c3chunk1, c3chunk2]).2 ≠
      framesOf (runChunks c3cfg (startState c3cfg) [c3chunk1 ++ c3chunk2]).2 := by
  decide

/-- C3 (amended): for any configuration and any partition of a logical byte
sequence into chunks, if the chunked run never hits the oversized-header
discard (the DoS guard that clears the buffer), then it produces exactly
the same ordered event sequence — in particular the same ordered frame
payloads — as feeding the whole sequence as a single chunk. -/
theorem c3_rechunking (cfg : TransportConfig) (chunks : List (List Char))
    (h : headerDiscard ∉ (runChunks cfg (startState cfg) chunks).2) :
    framesOf (runChunks cfg (startState cfg) chunks).2 =
      framesOf (runChunks cfg (startState cfg) [chunks.flatten]).2 := by
  cases chunks with
  | nil =>
    rcases hcf : cfg.framing <;>
      simp [runChunks, feedChunk, processBuffer, detectFraming, startState, hcf,
        processNewlineFraming, processContentLengthFraming, procCLAux, splitNl,
        startsWithL, clKey, framesOf]
  | cons c cs =>
    rw [runChunks_eq_feed cfg cs (startState cfg) c h]
    simp only [runChunks, List.flatten_cons]
    simp

/-- C3 witness: a run (auto mode, default limits) split across a
prefix-ambiguous boundary satisfies the no-discard hypothesis and yields
the same frames as the single-chunk run. -/
theorem c3_rechunking_witness :
    headerDiscard ∉
      (runChunks DEFAULT_CONFIG (startState DEFAULT_CONFIG)
        ["Content-Le".data, "ngth: 2\r\n\r\nhi".data]).2 ∧
    framesOf (runChunks DEFAULT_CONFIG (startState DEFAULT_CONFIG)
        ["Content-Le".data, "ngth: 2\r\n\r\nhi".data]).2 =
      framesOf (runChunks DEFAULT_CONFIG (startState DEFAULT_CONFIG)
        [["Content-Le".data, "ngth: 2\r\n\r\nhi".data].flatten]).2 :=
  ⟨by decide, c3_rechunking DEFAULT_CONFIG _ (by decide)⟩

/-! ### C4: framing discipline is sticky; stop re-arms only in auto mode -/

theorem feed_preserves_resolved (cfg : TransportConfig) (st : TState) (t : List Char)
    (h : st.framingResolved = true) :
    (feedChunk cfg st t).1.framingResolved = true ∧
      (feedChunk cfg st t).1.currentFraming = st.currentFraming := by
  unfold feedChunk
  rw [processBuffer_resolved cfg _ (by simp [h])]
  by_cases hcf : ({ st with buffer := st.buffer ++ t } : TState).currentFraming =
      Discipline.contentLength
  · rw [if_pos hcf]
    exact ⟨h, rfl⟩
  · rw [if_neg hcf]
    exact ⟨h, rfl⟩

/-- C4: once the framing discipline is resolved, feeding any further chunks
never changes it (nor un-resolves it); and `stop` re-arms detection
(`framingResolved := false`) exactly when the configured mode is `auto`. -/
theorem c4_framing_sticky (cfg : TransportConfig) (st : TState)
    (h : st.framingResolved = true) :
    (∀ chunks : List (List Char),
      (runChunks cfg st chunks).1.framingResolved = true ∧
      (runChunks cfg st chunks).1.currentFraming = st.currentFraming) ∧
    (∀ st' : TState, st'.isRunning = true →
      ((stopTransport cfg st').framingResolved = false ↔ cfg.framing = .auto)) := by
  constructor
  · intro chunks
    induction chunks generalizing st with
    | nil => exact ⟨h, rfl⟩
    | cons c cs ih =>
      simp only [runChunks]
      have h1 := feed_preserves_resolved cfg st c h
      have h2 := ih (feedChunk cfg st c).1 h1.1
      exact ⟨h2.1, h2.2.trans h1.2⟩
  · intro st' hrun
    unfold stopTransport
    rw [if_neg (by simp [hrun])]
    simp

/-- A connection state already resolved to newline framing. -/
def c4st : TState :=
  { buffer := []
    isRunning := true
    currentFraming := .newline
    framingResolved := true }

/-- C4 witness: a connection resolved to newline framing stays resolved to
newline after two more chunks (whose bytes would match the content-length
heuristic), and stopping an auto-mode connection re-arms detection. -/
theorem c4_framing_sticky_witness :
    c4st.framingResolved = true ∧
    ((runChunks DEFAULT_CONFIG c4st
        ["Content-Length: 2\r\n".data, "\r\nxx\n".data]).1.framingResolved = true ∧
      (runChunks DEFAULT_CONFIG c4st
        ["Content-Length: 2\r\n".data, "\r\nxx\n".data]).1.currentFraming =
        c4st.currentFraming) ∧
    ((stopTransport DEFAULT_CONFIG c4st).framingResolved = false ↔
      DEFAULT_CONFIG.framing = .auto) :=
  ⟨rfl,
   (c4_framing_sticky DEFAULT_CONFIG c4st rfl).1 _,
   (c4_framing_sticky DEFAULT_CONFIG c4st rfl).2 c4st rfl⟩

/-! ### C10: unresolved auto mode retains everything and applies no limit -/

/-- C10: while the configured mode is `auto` and framing is unresolved, a
chunk whose accumulated buffer does not (after leading whitespace) start
with the `Content-Length:` token nor with `\x7b` or `[` produces no frame,
no event at all, and retains every buffered byte — no header- or
message-size limit is applied, whatever the buffer length (the conclusion
holds for every configuration, with no bound on `(st.buffer ++ chunk)`). -/
theorem c10_unresolved_retains (cfg : TransportConfig) (st : TState) (chunk : List Char)
    (hmode : cfg.framing = .auto) (hres : st.framingResolved = false)
    (hcl : ¬ startsWithL clKey ((st.buffer ++ chunk).dropWhile isJsWs) = true)
    (hjs : ¬ (startsWithL [Char.ofNat 123] ((st.buffer ++ chunk).dropWhile isJsWs) = true ∨
      startsWithL ['['] ((st.buffer ++ chunk).dropWhile isJsWs) = true)) :
    feedChunk cfg st chunk = ({ st with buffer := st.buffer ++ chunk }, []) :=
  processBuffer_undecided cfg _ ⟨by simp [hres], hmode⟩ hcl hjs

/-- An auto-mode configuration with tiny size limits. -/
def c10cfg : TransportConfig :=
  { framing := .auto
    maxConcurrency := 16
    maxMessageSize := 1
    maxHeaderSize := 1 }

/-- C10 witness: an auto-mode connection with tiny limits (max header and
message size 1) fed 5 bytes of non-matching text emits nothing and keeps
all 5 bytes buffered. -/
theorem c10_unresolved_retains_witness :
    (c10cfg.framing = .auto ∧ (startState c10cfg).framingResolved = false) ∧
    feedChunk c10cfg (startState c10cfg) "hello".data =
      ({ startState c10cfg with
          buffer := (startState c10cfg).buffer ++ "hello".data }, []) :=
  ⟨⟨rfl, rfl⟩,
   c10_unresolved_retains c10cfg (startState c10cfg) "hello".data rfl rfl
     (by decide) (by decide)⟩

/-! ### C6: bad Content-Length header blocks are skipped exactly -/

/-- C6: in content-length framing, a header block `H` (the text before the
first `\r\n\r\n`) whose Content-Length value is missing/non-numeric (the
regex cannot produce a negative or non-fitting number, so those cases are
`parseContentLength H = none`) or greater than the configured max message
size makes the reader emit exactly one parse/size error event and continue
with exactly the text after the separator: the declared body length is
never consumed, and any following header block is processed normally. -/
theorem c6_bad_header_skips_block (cfg : TransportConfig) (H rest : List Char)
    (hsep : findSep (H ++ (sepChars ++ rest)) = some H.length)
    (hbad : parseContentLength H = none ∨
      ∃ n, parseContentLength H = some n ∧ cfg.maxMessageSize < n) :
    ∃ code msg, (code = PARSE_ERROR ∨ code = PAYLOAD_TOO_LARGE) ∧
      processContentLengthFraming cfg (H ++ (sepChars ++ rest)) =
        (FrameEvent.errEvent code msg :: (processContentLengthFraming cfg rest).1,
         (processContentLengthFraming cfg rest).2) := by
  have htake : (H ++ (sepChars ++ rest)).take H.length = H := by
    rw [List.take_append_of_le_length (le_refl _), List.take_length]
  have hdrop : (H ++ (sepChars ++ rest)).drop (H.length + 4) = rest := by
    rw [← List.append_assoc]
    have hlen : (H ++ sepChars).length = H.length + 4 := by
      simp [sepChars]
    rw [← hlen, List.drop_left]
  rcases hbad with hb | ⟨n, hp, hn⟩
  · refine ⟨PARSE_ERROR, "Missing Content-Length header", Or.inl rfl, ?_⟩
    rw [procCL_badheader cfg hsep (by rw [htake]; exact hb), hdrop]
  · refine ⟨PAYLOAD_TOO_LARGE, "Invalid Content-Length", Or.inr rfl, ?_⟩
    rw [procCL_oversize cfg hsep (by rw [htake]; exact hp) hn, hdrop]

/-- C6 witness: the bad block `"X"` before a well-formed
`Content-Length: 1` block is skipped with one error event, and the
following block still yields its frame. -/
theorem c6_bad_header_witness :
    (findSep ("X".data ++ (sepChars ++ "Content-Length: 1\r\n\r\nA".data)) =
        some ("X".data).length ∧
      parseContentLength "X".data = none) ∧
    (∃ code msg, (code = PARSE_ERROR ∨ code = PAYLOAD_TOO_LARGE) ∧
      processContentLengthFraming c3cfg
          ("X".data ++ (sepChars ++ "Content-Length: 1\r\n\r\nA".data)) =
        (FrameEvent.errEvent code msg ::
           (processContentLengthFraming c3cfg "Content-Length: 1\r\n\r\nA".data).1,
         (processContentLengthFraming c3cfg "Content-Length: 1\r\n\r\nA".data).2)) :=
  ⟨⟨by decide, by decide⟩,
   c6_bad_header_skips_block c3cfg _ _ (by decide) (Or.inl (by decide))⟩

/-! ## AsyncSemaphore (framing.ts lines 198-229)

`handleMessage` acquires one slot per classified Request before invoking
`processRequest`, whose `finally` releases it (lines 427, 462-476), so
`active` counts the request handlers currently executing.  JavaScript's
single-threaded event loop makes each `acquire`/`release` body atomic,
which the step function models. -/

structure Semaphore where
  limit : Nat
  active : Nat
  queue : List Nat
deriving DecidableEq, Repr

/-- `new AsyncSemaphore(limit)` (line 204): the effective limit is
`Math.max(1, limit)`; the constructor receives `config.maxConcurrency`
(default 16). -/
def mkSemaphore (limit : Nat) : Semaphore :=
  { limit := max 1 limit, active := 0, queue := [] }

/-- The atomic operations: an acquire by the waiter with the given
identity, or a release. -/
inductive SemOp where
  | acquire (waiter : Nat) : SemOp
  | release : SemOp
deriving DecidableEq, Repr

/-- One atomic step.  Returns the successor state, the waiters granted a
slot from the queue at this step, and the waiters enqueued at this step.
`acquire` grants immediately when `active < limit` and otherwise appends
the waiter to the queue (lines 207-220); `release` decrements
(`Math.max(0, active - 1)` is `Nat` subtraction) and, when a waiter is
queued, shifts the head and re-increments for its grant
(lines 222-228). -/
def semStep (s : Semaphore) : SemOp → Semaphore × List Nat × List Nat
  | .acquire w =>
    if s.active < s.limit then
      ({ s with active := s.active + 1 }, [], [])
    else
      ({ s with queue := s.queue ++ [w] }, [], [w])
  | .release =>
    match s.queue with
    | [] => ({ s with active := s.active - 1 }, [], [])
    | w :: rest => ({ s with active := s.active - 1 + 1, queue := rest }, [w], [])

/-- Run a sequence of operations, accumulating the queue-grants and the
enqueued waiters in order. -/
def semRun (s : Semaphore) : List SemOp → Semaphore × List Nat × List Nat
  | [] => (s, [], [])
  | op :: ops =>
    ((semRun (semStep s op).1 ops).1,
     (semStep s op).2.1 ++ (semRun (semStep s op).1 ops).2.1,
     (semStep s op).2.2 ++ (semRun (semStep s op).1 ops).2.2)

/-- Every state along a run, initial state included. -/
def semStates (s : Semaphore) : List SemOp → List Semaphore
  | [] => [s]
  | op :: ops => s :: semStates (semStep s op).1 ops

theorem semStep_invariant (s : Semaphore) (op : SemOp)
    (h : s.active ≤ s.limit) (hl : 1 ≤ s.limit) :
    (semStep s op).1.active ≤ s.limit ∧ (semStep s op).1.limit = s.limit := by
  cases op with
  | acquire w =>
    by_cases hlt : s.active < s.limit
    · refine ⟨?_, ?_⟩ <;> simp [semStep, if_pos hlt]
      omega
    · refine ⟨?_, ?_⟩ <;> simp [semStep, if_neg hlt]
      exact h
  | release =>
    cases hq : s.queue with
    | nil =>
      refine ⟨?_, by simp [semStep, hq]⟩
      simp only [semStep, hq]
      omega
    | cons w rest =>
      refine ⟨?_, by simp [semStep, hq]⟩
      simp only [semStep, hq]
      omega

theorem semStates_active_le (s : Semaphore) :
    ∀ (ops : List SemOp), s.active ≤ s.limit → 1 ≤ s.limit →
      ∀ s' ∈ semStates s ops, s'.active ≤ s.limit := by
  intro ops
  induction ops generalizing s with
  | nil =>
    intro h _ s' hs'
    simp [semStates] at hs'
    subst hs'
    exact h
  | cons op ops ih =>
    intro h hl s' hs'
    simp only [semStates, List.mem_cons] at hs'
    rcases hs' with rfl | hs'
    · exact h
    · obtain ⟨ha, he⟩ := semStep_invariant s op h hl
      have := ih (semStep s op).1 (he ▸ ha) (he ▸ hl) s' hs'
      rw [he] at this
      exact this

theorem semRun_fifo (s : Semaphore) :
    ∀ (ops : List SemOp),
      s.queue ++ (semRun s ops).2.2 = (semRun s ops).2.1 ++ (semRun s ops).1.queue := by
  intro ops
  induction ops generalizing s with
  | nil => simp [semRun]
  | cons op ops ih =>
    simp only [semRun]
    cases op with
    | acquire w =>
      by_cases hlt : s.active < s.limit
      · simp only [semStep, if_pos hlt]
        simpa using ih { s with active := s.active + 1 }
      · simp only [semStep, if_neg hlt]
        have h2 := ih { s with queue := s.queue ++ [w] }
        dsimp only at h2 ⊢
        rw [List.nil_append, ← List.append_assoc]
        exact h2
    | release =>
      cases hq : s.queue with
      | nil =>
        simp only [semStep, hq]
        have h2 := ih { s with active := s.active - 1 }
        dsimp only at h2 ⊢
        rw [hq] at h2
        simpa using h2
      | cons w rest =>
        simp only [semStep, hq]
        have h2 := ih { s with active := s.active - 1 + 1, queue := rest }
        dsimp only at h2 ⊢
        rw [List.nil_append, List.cons_append, h2]
        simp

/-- C5: for every interleaving of acquire/release operations on a gate
created with configured limit `k` (effective limit `K = max 1 k`, default
16), `active ≤ K` holds in every reachable state — so at most `K` request
handlers (each holding one slot between its acquire and the release in
`processRequest`'s `finally`) run simultaneously — and the queue is FIFO:
the waiters enqueued so far are exactly the queue-grants so far followed
by the still-pending queue, in arrival order. -/
theorem c5_semaphore_bound_fifo (k : Nat) (ops : List SemOp) :
    (∀ s' ∈ semStates (mkSemaphore k) ops, s'.active ≤ max 1 k) ∧
    (semRun (mkSemaphore k) ops).2.2 =
      (semRun (mkSemaphore k) ops).2.1 ++ (semRun (mkSemaphore k) ops).1.queue := by
  constructor
  · exact semStates_active_le (mkSemaphore k) ops (by simp [mkSemaphore]) (by simp [mkSemaphore])
  · have := semRun_fifo (mkSemaphore k) ops
    simpa [mkSemaphore] using this

/-- C5 witness: limit 1, three concurrent acquires then two releases —
the bound holds at the intermediate state with a full queue, and the two
queued waiters are granted in arrival order with the third still
pending. -/
theorem c5_semaphore_witness :
    (({ limit := 1, active := 1, queue := [2, 3] } : Semaphore) ∈
        semStates (mkSemaphore 1)
          [SemOp.acquire 1, SemOp.acquire 2, SemOp.acquire 3, SemOp.release] ∧
      ({ limit := 1, active := 1, queue := [2, 3] } : Semaphore).active ≤ max 1 1) ∧
    (semRun (mkSemaphore 1)
        [SemOp.acquire 1, SemOp.acquire 2, SemOp.acquire 3, SemOp.release,
          SemOp.release]).2.2 =
      (semRun (mkSemaphore 1)
        [SemOp.acquire 1, SemOp.acquire 2, SemOp.acquire 3, SemOp.release,
          SemOp.release]).2.1 ++
      (semRun (mkSemaphore 1)
        [SemOp.acquire 1, SemOp.acquire 2, SemOp.acquire 3, SemOp.release,
          SemOp.release]).1.queue :=
  ⟨⟨by decide,
    (c5_semaphore_bound_fifo 1
      [SemOp.acquire 1, SemOp.acquire 2, SemOp.acquire 3, SemOp.release]).1 _
      (by decide)⟩,
   (c5_semaphore_bound_fifo 1
     [SemOp.acquire 1, SemOp.acquire 2, SemOp.acquire 3, SemOp.release,
       SemOp.release]).2⟩

/-! ## Error mapper (mcp-client.ts lines 210-318)

`JSONRPC_ERROR_CODES` of that block: the standard codes above plus
`SERVER_ERROR` and the MCP `RESOURCE_NOT_FOUND`. -/

def SERVER_ERROR : Int := -32000
def RESOURCE_NOT_FOUND : Int := -32002

/-- The shape-relevant projection of an arbitrary thrown JavaScript value:
whether it is an `Error` instance, its `message`, whether it is a non-null
object, and whether it has an `errors` property (the Zod validation
shape). -/
structure JsError where
  isErrorInstance : Bool
  message : String
  isObject : Bool
  isNull : Bool
  hasErrorsField : Bool
deriving DecidableEq, Repr

/-- `sub` occurs as a contiguous run inside `s`
(JavaScript `String.includes`). -/
def containsSub (sub : List Char) : List Char → Bool
  | [] => sub.isEmpty
  | c :: cs => startsWithL sub (c :: cs) || containsSub sub cs

/-- `error.message.toLowerCase().includes(sub)` for an ASCII `sub`. -/
def msgIncludes (e : JsError) (sub : String) : Bool :=
  containsSub sub.data (e.message.data.map Char.toLower)

/-- The `code`/`message`/`data.reason` triple the mapper produces.  The
`data` object also carries `details: error.errors` in the validation case
and `error: message` in the default case; no claim depends on those
payloads, only on which case fired, which `dataReason` identifies. -/
structure MappedError where
  code : Int
  message : String
  dataReason : Option String
deriving DecidableEq, Repr

/-- `typeof error === "object" && error !== null && "errors" in error`. -/
def validationShape (e : JsError) : Bool :=
  e.isObject && !e.isNull && e.hasErrorsField

/-- `mapErrorToJsonRpc` (mcp-client.ts lines 237-318): the
`instanceof Error` message-category chain runs first, then the
structured-validation-shape check, then the default. -/
def mapErrorToJsonRpc (e : JsError) : MappedError :=
  if e.isErrorInstance &&
      (msgIncludes e "semaphore" || msgIncludes e "concurrency" ||
        msgIncludes e "rate limit") then
    ⟨INTERNAL_ERROR, "Request rejected due to concurrency limits",
      some "concurrency_limit_exceeded"⟩
  else if e.isErrorInstance &&
      (msgIncludes e "payload" || msgIncludes e "size" || msgIncludes e "large") then
    ⟨INVALID_PARAMS, "Request payload exceeds size limits", some "payload_too_large"⟩
  else if e.isErrorInstance &&
      (msgIncludes e "service" || msgIncludes e "unavailable" ||
        msgIncludes e "timeout") then
    ⟨INTERNAL_ERROR, "Service temporarily unavailable", some "service_unavailable"⟩
  else if e.isErrorInstance &&
      (msgIncludes e "config" || msgIncludes e "environment") then
    ⟨INTERNAL_ERROR, "Server configuration error", some "configuration_error"⟩
  else if e.isErrorInstance &&
      (msgIncludes e "security" || msgIncludes e "unauthorized" ||
        msgIncludes e "forbidden") then
    ⟨INTERNAL_ERROR, "Security policy violation", some "security_violation"⟩
  else if e.isErrorInstance &&
      (msgIncludes e "not found" || msgIncludes e "resource") then
    ⟨RESOURCE_NOT_FOUND, "Resource not found", some "resource_not_found"⟩
  else if validationShape e then
    ⟨INVALID_PARAMS, "Invalid parameters", some "validation_error"⟩
  else
    ⟨INTERNAL_ERROR, "Internal server error", some "unknown_error"⟩

/-- The mapper as the claim words it: validation shape first, then the
message categories, then the default.  Stated from the spec, for
comparison with `mapErrorToJsonRpc`. -/
def specMapError (e : JsError) : MappedError :=
  if validationShape e then
    ⟨INVALID_PARAMS, "Invalid parameters", some "validation_error"⟩
  else if e.isErrorInstance &&
      (msgIncludes e "semaphore" || msgIncludes e "concurrency" ||
        msgIncludes e "rate limit") then
    ⟨INTERNAL_ERROR, "Request rejected due to concurrency limits",
      some "concurrency_limit_exceeded"⟩
  else if e.isErrorInstance &&
      (msgIncludes e "payload" || msgIncludes e "size" || msgIncludes e "large") then
    ⟨INVALID_PARAMS, "Request payload exceeds size limits", some "payload_too_large"⟩
  else if e.isErrorInstance &&
      (msgIncludes e "service" || msgIncludes e "unavailable" ||
        msgIncludes e "timeout") then
    ⟨INTERNAL_ERROR, "Service temporarily unavailable", some "service_unavailable"⟩
  else if e.isErrorInstance &&
      (msgIncludes e "config" || msgIncludes e "environment") then
    ⟨INTERNAL_ERROR, "Server configuration error", some "configuration_error"⟩
  else if e.isErrorInstance &&
      (msgIncludes e "security" || msgIncludes e "unauthorized" ||
        msgIncludes e "forbidden") then
    ⟨INTERNAL_ERROR, "Security policy violation", some "security_violation"⟩
  else if e.isErrorInstance &&
      (msgIncludes e "not found" || msgIncludes e "resource") then
    ⟨RESOURCE_NOT_FOUND, "Resource not found", some "resource_not_found"⟩
  else
    ⟨INTERNAL_ERROR, "Internal server error", some "unknown_error"⟩

/-- The first matching operational category for an `Error` instance, in
the code's order, if any. -/
def categoryOf (e : JsError) : Option MappedError :=
  if msgIncludes e "semaphore" || msgIncludes e "concurrency" ||
      msgIncludes e "rate limit" then
    some ⟨INTERNAL_ERROR, "Request rejected due to concurrency limits",
      some "concurrency_limit_exceeded"⟩
  else if msgIncludes e "payload" || msgIncludes e "size" || msgIncludes e "large" then
    some ⟨INVALID_PARAMS, "Request payload exceeds size limits", some "payload_too_large"⟩
  else if msgIncludes e "service" || msgIncludes e "unavailable" ||
      msgIncludes e "timeout" then
    some ⟨INTERNAL_ERROR, "Service temporarily unavailable", some "service_unavailable"⟩
  else if msgIncludes e "config" || msgIncludes e "environment" then
    some ⟨INTERNAL_ERROR, "Server configuration error", some "configuration_error"⟩
  else if msgIncludes e "security" || msgIncludes e "unauthorized" ||
      msgIncludes e "forbidden" then
    some ⟨INTERNAL_ERROR, "Security policy violation", some "security_violation"⟩
  else if msgIncludes e "not found" || msgIncludes e "resource" then
    some ⟨RESOURCE_NOT_FOUND, "Resource not found", some "resource_not_found"⟩
  else none

/-- The amended precedence: (1) for `Error` instances, the first matching
message category wins; (2) otherwise the structured validation shape maps
to INVALID_PARAMS with the validation details; (3) otherwise
INTERNAL_ERROR. -/
def amendedMapError (e : JsError) : MappedError :=
  match (if e.isErrorInstance then categoryOf e else none) with
  | some r => r
  | none =>
    if validationShape e then
      ⟨INVALID_PARAMS, "Invalid parameters", some "validation_error"⟩
    else
      ⟨INTERNAL_ERROR, "Internal server error", some "unknown_error"⟩

/-- C7 counterexample: an `Error` instance with message `"not found"`
carrying an `errors` property.  The code's mapper returns the not-found
category (code -32002), while the claim's precedence — validation shape
first — demands INVALID_PARAMS (-32602) with the validation details. -/
theorem c7_counterexample :
    mapErrorToJsonRpc ⟨true, "not found", true, false, true⟩ =
      ⟨RESOURCE_NOT_FOUND, "Resource not found", some "resource_not_found"⟩ ∧
    specMapError ⟨true, "not found", true, false, true⟩ =
      ⟨INVALID_PARAMS, "Invalid parameters", some "validation_error"⟩ ∧
    mapErrorToJsonRpc ⟨true, "not found", true, false, true⟩ ≠
      specMapError ⟨true, "not found", true, false, true⟩ := by
  refine ⟨by decide, by decide, by decide⟩

/-- C7 (amended): the mapper is a pure function applying the precedence
(1) `Error`-instance message-category match, (2) structured
validation-error shape ⇒ INVALID_PARAMS with validation details,
(3) default ⇒ INTERNAL_ERROR; and every code it emits lies within
[-32768, -32000]. -/
theorem c7_mapper_correct (e : JsError) :
    mapErrorToJsonRpc e = amendedMapError e ∧
    -32768 ≤ (mapErrorToJsonRpc e).code ∧ (mapErrorToJsonRpc e).code ≤ -32000 := by
  refine ⟨?_, ?_⟩
  · unfold mapErrorToJsonRpc amendedMapError categoryOf
    cases he : e.isErrorInstance
    · simp
    · by_cases h1 : (msgIncludes e "semaphore" || msgIncludes e "concurrency" ||
        msgIncludes e "rate limit") = true
      · simp [h1]
      · by_cases h2 : (msgIncludes e "payload" || msgIncludes e "size" ||
          msgIncludes e "large") = true
        · simp [h1, h2]
        · by_cases h3 : (msgIncludes e "service" || msgIncludes e "unavailable" ||
            msgIncludes e "timeout") = true
          · simp [h1, h2, h3]
          · by_cases h4 : (msgIncludes e "config" || msgIncludes e "environment") = true
            · simp [h1, h2, h3, h4]
            · by_cases h5 : (msgIncludes e "security" || msgIncludes e "unauthorized" ||
                msgIncludes e "forbidden") = true
              · simp [h1, h2, h3, h4, h5]
              · by_cases h6 : (msgIncludes e "not found" || msgIncludes e "resource") = true
                · simp [h1, h2, h3, h4, h5, h6]
                · simp [h1, h2, h3, h4, h5, h6]
  · unfold mapErrorToJsonRpc
    split_ifs <;> refine ⟨by decide, by decide⟩

/-! ## Dispatcher (dispatcher.ts: RpcHandlerRegistry)

Handlers and hooks are async functions that either return or throw; the
embedding gives them type `… → Except JsError …` (the thrown value being
the shape `mapErrorToJsonRpc` inspects).  The `onError` hook is modelled
as a total function returning an optional replacement error response — a
hook that itself threw would reject the `handleRequest` promise, a case no
claim covers. -/

inductive RpcId where
  | num (n : Int) : RpcId
  | str (s : String) : RpcId
deriving DecidableEq, Repr

structure RpcRequestM where
  id : RpcId
  method : String
  params : Option Json

structure RpcNotificationM where
  method : String
  params : Option Json

structure RpcResponseM where
  id : RpcId
  result : Option Json
  error : Option MappedError

structure RegistryM where
  requestHandlers : String → Option (RpcRequestM → Except JsError RpcResponseM)
  notificationHandlers : String → Option (RpcNotificationM → Except JsError Unit)
  beforeRequest : Option (RpcRequestM → Except JsError Unit)
  afterRequest : Option (RpcRequestM → RpcResponseM → Except JsError Unit)
  beforeNotification : Option (RpcNotificationM → Except JsError Unit)
  afterNotification : Option (RpcNotificationM → Except JsError Unit)
  onError : Option (JsError → RpcRequestM → Option RpcResponseM)

/-- The Method-not-found error response (dispatcher.ts lines 85-94). -/
def methodNotFound (id : RpcId) : RpcResponseM :=
  ⟨id, none, some ⟨METHOD_NOT_FOUND, "Method not found", none⟩⟩

/-- The `try` block of `handleRequest` (dispatcher.ts lines 77-105), with
exception propagation made explicit: beforeRequest hook, handler lookup
(returning the method-not-found response when absent), handler call,
afterRequest hook. -/
def handleRequestCore (reg : RegistryM) (req : RpcRequestM) :
    Except JsError RpcResponseM :=
  match (match reg.beforeRequest with
         | some h => h req
         | none => Except.ok ()) with
  | .error e => .error e
  | .ok _ =>
    match reg.requestHandlers req.method with
    | none => .ok (methodNotFound req.id)
    | some handler =>
      match handler req with
      | .error e => .error e
      | .ok resp =>
        match (match reg.afterRequest with
               | some h => h req resp
               | none => Except.ok ()) with
        | .error e => .error e
        | .ok _ => .ok resp

/-- `RpcHandlerRegistry.handleRequest` (dispatcher.ts lines 69-123): run
the try block; on a thrown error consult `onError` for a replacement,
else map the error and answer with the request's own id. -/
def handleRequest (reg : RegistryM) (req : RpcRequestM) : RpcResponseM :=
  match handleRequestCore reg req with
  | .ok r => r
  | .error err =>
    match reg.onError with
    | some hook =>
      match hook err req with
      | some r => r
      | none => ⟨req.id, none, some (mapErrorToJsonRpc err)⟩
    | none => ⟨req.id, none, some (mapErrorToJsonRpc err)⟩

/-- C8: (a) a Request whose method has no registered handler is answered
with code -32601, message "Method not found" and the request's own id,
whenever the beforeRequest hook (if any) does not throw; (b) more
generally `handleRequest` always returns a response, and that response
comes from one of exactly four sources: the method-not-found synthesis,
the handler's successful response, an `onError`-hook replacement, or the
mapped-error response carrying the request's own id — never silently
dropped. -/
theorem c8_dispatcher_always_responds (reg : RegistryM) (req : RpcRequestM) :
    (reg.requestHandlers req.method = none →
      (reg.beforeRequest = none ∨
        ∃ hb, reg.beforeRequest = some hb ∧ hb req = Except.ok ()) →
      handleRequest reg req = methodNotFound req.id) ∧
    (handleRequest reg req = methodNotFound req.id ∨
      (∃ h r, reg.requestHandlers req.method = some h ∧ h req = Except.ok r ∧
        handleRequest reg req = r) ∨
      (∃ e hook r, reg.onError = some hook ∧ hook e req = some r ∧
        handleRequest reg req = r) ∨
      (∃ e, handleRequest reg req = ⟨req.id, none, some (mapErrorToJsonRpc e)⟩)) := by
  constructor
  · intro hno hb
    unfold handleRequest handleRequestCore
    rcases hb with hb | ⟨f, hf, hok⟩
    · rw [hb, hno]
    · rw [hf]
      dsimp only
      rw [hok, hno]
  · unfold handleRequest handleRequestCore
    rcases hbr : reg.beforeRequest with _ | f
    · dsimp only
      rcases hlk : reg.requestHandlers req.method with _ | handler
      · exact Or.inl rfl
      · dsimp only
        rcases hh : handler req with e | resp
        · rcases hoe : reg.onError with _ | hook
          · exact Or.inr (Or.inr (Or.inr ⟨e, rfl⟩))
          · dsimp only
            rcases hhook : hook e req with _ | r
            · exact Or.inr (Or.inr (Or.inr ⟨e, rfl⟩))
            · exact Or.inr (Or.inr (Or.inl ⟨e, hook, r, rfl, hhook, rfl⟩))
        · rcases har : reg.afterRequest with _ | g
          · exact Or.inr (Or.inl ⟨handler, resp, rfl, hh, rfl⟩)
          · dsimp only
            rcases hg : g req resp with e | u
            · rcases hoe : reg.onError with _ | hook
              · exact Or.inr (Or.inr (Or.inr ⟨e, rfl⟩))
              · dsimp only
                rcases hhook : hook e req with _ | r
                · exact Or.inr (Or.inr (Or.inr ⟨e, rfl⟩))
                · exact Or.inr (Or.inr (Or.inl ⟨e, hook, r, rfl, hhook, rfl⟩))
            · exact Or.inr (Or.inl ⟨handler, resp, rfl, hh, rfl⟩)
    · dsimp only
      rcases hf : f req with e | u
      · rcases hoe : reg.onError with _ | hook
        · exact Or.inr (Or.inr (Or.inr ⟨e, rfl⟩))
        · dsimp only
          rcases hhook : hook e req with _ | r
          · exact Or.inr (Or.inr (Or.inr ⟨e, rfl⟩))
          · exact Or.inr (Or.inr (Or.inl ⟨e, hook, r, rfl, hhook, rfl⟩))
      · rcases hlk : reg.requestHandlers req.method with _ | handler
        · exact Or.inl rfl
        · dsimp only
          rcases hh : handler req with e | resp
          · rcases hoe : reg.onError with _ | hook
            · exact Or.inr (Or.inr (Or.inr ⟨e, rfl⟩))
            · dsimp only
              rcases hhook : hook e req with _ | r
              · exact Or.inr (Or.inr (Or.inr ⟨e, rfl⟩))
              · exact Or.inr (Or.inr (Or.inl ⟨e, hook, r, rfl, hhook, rfl⟩))
          · rcases har : reg.afterRequest with _ | g
            · exact Or.inr (Or.inl ⟨handler, resp, rfl, hh, rfl⟩)
            · dsimp only
              rcases hg : g req resp with e | u
              · rcases hoe : reg.onError with _ | hook
                · exact Or.inr (Or.inr (Or.inr ⟨e, rfl⟩))
                · dsimp only
                  rcases hhook : hook e req with _ | r
                  · exact Or.inr (Or.inr (Or.inr ⟨e, rfl⟩))
                  · exact Or.inr (Or.inr (Or.inl ⟨e, hook, r, rfl, hhook, rfl⟩))
              · exact Or.inr (Or.inl ⟨handler, resp, rfl, hh, rfl⟩)

/-- A registry with nothing registered and no hooks. -/
def emptyRegistry : RegistryM :=
  { requestHandlers := fun _ => none
    notificationHandlers := fun _ => none
    beforeRequest := none
    afterRequest := none
    beforeNotification := none
    afterNotification := none
    onError := none }

/-- C8 witness: the spec's example — id 2, method `"missing"`, no handler
registered — yields exactly the -32601 "Method not found" response with
id 2. -/
theorem c8_dispatcher_witness :
    emptyRegistry.requestHandlers "missing" = none ∧
    handleRequest emptyRegistry ⟨RpcId.num 2, "missing", none⟩ =
      methodNotFound (RpcId.num 2) :=
  ⟨rfl,
   (c8_dispatcher_always_responds emptyRegistry ⟨RpcId.num 2, "missing", none⟩).1
     rfl (Or.inl rfl)⟩

/-! ## JSON.parse (RFC 8259 grammar) and safeJsonParse

A recursive-descent model of `JSON.parse`, with explicit fuel (one unit
per nested value / aggregate element, so `input.length + 1` always
suffices).  Numbers keep their lexeme. -/

/-- JSON insignificant whitespace (RFC 8259): space, tab, LF, CR. -/
def isJsonWs (c : Char) : Bool :=
  c == ' ' || c == '\t' || c == '\n' || c == '\r'

def isHexDigit (c : Char) : Bool :=
  c.isDigit || ('a' ≤ c && c ≤ 'f') || ('A' ≤ c && c ≤ 'F')

def hexVal (c : Char) : Nat :=
  if c.isDigit then c.toNat - '0'.toNat
  else if 'a' ≤ c && c ≤ 'f' then c.toNat - 'a'.toNat + 10
  else c.toNat - 'A'.toNat + 10

/-- Decode a `\uXXXX` code unit; a lone surrogate (which JavaScript would
keep as-is) falls back through `Char.ofNat` to NUL, a divergence no claim
reaches. -/
def charOfCode (n : Nat) : Char := Char.ofNat n

/-- The body of a JSON string after the opening quote: characters up to
the closing quote, with the escape sequences of RFC 8259; unescaped
control characters are rejected, as `JSON.parse` does. -/
def parseStringBody : List Char → Option (List Char × List Char)
  | [] => none
  | '"' :: rest => some ([], rest)
  | '\\' :: esc =>
    match esc with
    | 'u' :: h1 :: h2 :: h3 :: h4 :: rest =>
      if isHexDigit h1 && isHexDigit h2 && isHexDigit h3 && isHexDigit h4 then
        match parseStringBody rest with
        | some (s, r) =>
          some (charOfCode (((hexVal h1 * 16 + hexVal h2) * 16 + hexVal h3) * 16 +
            hexVal h4) :: s, r)
        | none => none
      else none
    | c :: rest =>
      if c = '"' || c = '\\' || c = '/' then
        match parseStringBody rest with
        | some (s, r) => some (c :: s, r)
        | none => none
      else if c = 'b' then
        match parseStringBody rest with
        | some (s, r) => some ('\x08' :: s, r)
        | none => none
      else if c = 'f' then
        match parseStringBody rest with
        | some (s, r) => some ('\x0c' :: s, r)
        | none => none
      else if c = 'n' then
        match parseStringBody rest with
        | some (s, r) => some ('\n' :: s, r)
        | none => none
      else if c = 'r' then
        match parseStringBody rest with
        | some (s, r) => some ('\r' :: s, r)
        | none => none
      else if c = 't' then
        match parseStringBody rest with
        | some (s, r) => some ('\t' :: s, r)
        | none => none
      else none
    | [] => none
  | c :: rest =>
    if c.toNat < 0x20 then none
    else
      match parseStringBody rest with
      | some (s, r) => some (c :: s, r)
      | none => none

/-- Optional fraction part `.[0-9]+`. -/
def parseFracPart : List Char → Option (List Char × List Char)
  | '.' :: r =>
    match r.takeWhile Char.isDigit with
    | [] => none
    | ds => some ('.' :: ds, r.drop ds.length)
  | r => some ([], r)

/-- Optional exponent part `[eE][+-]?[0-9]+`. -/
def parseExpPart : List Char → Option (List Char × List Char)
  | e :: r =>
    if e = 'e' || e = 'E' then
      match (match r with
             | '+' :: r2 => (['+'], r2)
             | '-' :: r2 => (['-'], r2)
             | r2 => (([] : List Char), r2)) with
    | (sgn, r2) =>
      match r2.takeWhile Char.isDigit with
      | [] => none
      | ds => some (e :: sgn ++ ds, r2.drop ds.length)
    else some ([], e :: r)
  | [] => some ([], [])

/-- Integer part `0 | [1-9][0-9]*`. -/
def parseIntPart : List Char → Option (List Char × List Char)
  | '0' :: r => some (['0'], r)
  | c :: r =>
    if c.isDigit then
      some (c :: r.takeWhile Char.isDigit, r.drop (r.takeWhile Char.isDigit).length)
    else none
  | [] => none

/-- The JSON number grammar
`-? (0 | [1-9][0-9]*) (\.[0-9]+)? ([eE][+-]?[0-9]+)?`; returns the lexeme
and the rest. -/
def parseNumberLex (s : List Char) : Option (List Char × List Char) :=
  match (match s with
         | '-' :: r => (['-'], r)
         | r => (([] : List Char), r)) with
  | (sign, s1) =>
    match parseIntPart s1 with
    | none => none
    | some (ip, r1) =>
      match parseFracPart r1 with
      | none => none
      | some (fp, r2) =>
        match parseExpPart r2 with
        | none => none
        | some (ep, r3) => some (sign ++ ip ++ fp ++ ep, r3)

mutual

/-- One JSON value: leading whitespace, then a literal, string, number,
object or array.  One unit of fuel per nested value or aggregate element,
so `input.length + 1` units always suffice. -/
def parseValue : Nat → List Char → Option (Json × List Char)
  | 0, _ => none
  | fuel + 1, s =>
    match s.dropWhile isJsonWs with
    | [] => none
    | c :: r =>
      if c = 'n' then
        match r with
        | 'u' :: 'l' :: 'l' :: rest => some (Json.null, rest)
        | _ => none
      else if c = 't' then
        match r with
        | 'r' :: 'u' :: 'e' :: rest => some (Json.bool true, rest)
        | _ => none
      else if c = 'f' then
        match r with
        | 'a' :: 'l' :: 's' :: 'e' :: rest => some (Json.bool false, rest)
        | _ => none
      else if c = '"' then
        match parseStringBody r with
        | some (str, rest) => some (Json.str (String.mk str), rest)
        | none => none
      else if c = Char.ofNat 123 then
        match r.dropWhile isJsonWs with
        | d :: r2 =>
          if d = Char.ofNat 125 then some (Json.obj [], r2)
          else
            match parseMembers fuel r with
            | some (ms, rest) => some (Json.obj ms, rest)
            | none => none
        | [] => none
      else if c = '[' then
        match r.dropWhile isJsonWs with
        | d :: r2 =>
          if d = ']' then some (Json.arr [], r2)
          else
            match parseElements fuel r with
            | some (vs, rest) => some (Json.arr vs, rest)
            | none => none
        | [] => none
      else if c = '-' || c.isDigit then
        match parseNumberLex (c :: r) with
        | some (lex, rest) => some (Json.num (String.mk lex), rest)
        | none => none
      else none

/-- Object members `"key" : value (, more)* \x7d`. -/
def parseMembers : Nat → List Char → Option (List (String × Json) × List Char)
  | 0, _ => none
  | fuel + 1, s =>
    match s.dropWhile isJsonWs with
    | '"' :: r =>
      match parseStringBody r with
      | none => none
      | some (key, r1) =>
        match r1.dropWhile isJsonWs with
        | ':' :: r2 =>
          match parseValue fuel r2 with
          | none => none
          | some (v, r3) =>
            match r3.dropWhile isJsonWs with
            | ',' :: r4 =>
              match parseMembers fuel r4 with
              | none => none
              | some (ms, r5) => some ((String.mk key, v) :: ms, r5)
            | d :: r4 =>
              if d = Char.ofNat 125 then some ([(String.mk key, v)], r4) else none
            | [] => none
        | _ => none
    | _ => none

/-- Array elements `value (, more)* ]`. -/
def parseElements : Nat → List Char → Option (List Json × List Char)
  | 0, _ => none
  | fuel + 1, s =>
    match parseValue fuel s with
    | none => none
    | some (v, r) =>
      match r.dropWhile isJsonWs with
      | ',' :: r2 =>
        match parseElements fuel r2 with
        | none => none
        | some (vs, r3) => some (v :: vs, r3)
      | ']' :: r2 => some ([v], r2)
      | _ => none

end

/-- `JSON.parse`: one value with nothing but whitespace around it. -/
def parseJson (raw : List Char) : Option Json :=
  match parseValue (raw.length + 1) raw with
  | some (j, rest) => if rest.dropWhile isJsonWs = [] then some j else none
  | none => none

/-- `safeJsonParse` (framing.ts lines 244-254): parse, then reject
non-objects (`typeof data !== "object" || data === null`) — only objects
and arrays reach classification; the error string is the raw message
`JSON.parse` threw, which no claim inspects. -/
def safeJsonParse (raw : List Char) : Except String Json :=
  match parseJson raw with
  | none => .error "Invalid JSON"
  | some j =>
    match j with
    | .obj _ => .ok j
    | .arr _ => .ok j
    | _ => .error "Invalid JSON structure"

/-! ## handleMessage (framing.ts lines 411-460)

The synchronous actions one frame produces.  `sendError` (lines 493-507)
always logs, but *writes* an outbound response only when the id is not
null — `errorLogged` below writes nothing.  A classified Request is
dispatched through the semaphore to `processRequest`, whose response is
written later; a classified Notification goes to `handleNotification`,
which never writes (see `handleNotificationT`). -/

inductive MsgAction where
  | errorLogged (id : Json) (code : Int) (msg : String) : MsgAction
  | errorWritten (id : Json) (code : Int) (msg : String) : MsgAction
  | dispatchRequest (m : Json) : MsgAction
  | notify (m : Json) : MsgAction

/-- `sendError((message as any)?.id ?? null, code, msg)`: null (or absent)
id ⇒ log only; any other id value ⇒ an outbound error response. -/
def sendErrorAction (id : Json) (code : Int) (msg : String) : MsgAction :=
  match id with
  | .null => .errorLogged id code msg
  | _ => .errorWritten id code msg

/-- `(message as any)?.id ?? null`. -/
def effectiveId (m : Json) : Json :=
  match getField m "id" with
  | some v => v
  | none => .null

/-- The batch unwrap (line 419): an array is processed element-wise. -/
def batchOf : Json → List Json
  | .arr xs => xs
  | j => [j]

/-- Per-message branch of `handleMessage` (lines 421-459): notification
test first, then request test, else the invalid-message `sendError` with
the message's own id when recoverable. -/
def classifyAction (m : Json) : List MsgAction :=
  if isNotification m then [.notify m]
  else if isValidRequest m then [.dispatchRequest m]
  else [sendErrorAction (effectiveId m) INVALID_REQUEST "Invalid JSON-RPC message"]

/-- `handleMessage(raw)` (lines 411-460): parse failures produce a single
`sendError(null, PARSE_ERROR, …)` — logged, never written — and stop;
otherwise each batch element is classified and acted on. -/
def handleMessageActions (raw : List Char) : List MsgAction :=
  match safeJsonParse raw with
  | .error e => [.errorLogged .null PARSE_ERROR e]
  | .ok j => (batchOf j).flatMap classifyAction

/-- The outbound responses `handleMessage` itself writes. -/
def writesOf (acts : List MsgAction) : List MsgAction :=
  acts.filter fun a =>
    match a with
    | .errorWritten _ _ _ => true
    | _ => false

/-- Processing a sequence of extracted frames: each frame is handled
independently, in order. -/
def processFrames (frames : List (List Char)) : List MsgAction :=
  frames.flatMap handleMessageActions

/-- C2 counterexample: the frame `not-json` fails to parse, and the code
produces *no* outbound response at all — `sendError` with a null id only
logs (framing.ts lines 493-507) — contradicting the claimed single
outbound `{"jsonrpc":"2.0","id":null,"error":{"code":-32700,…}}`
response. -/
theorem c2_counterexample :
    handleMessageActions "not-json".data =
      [MsgAction.errorLogged Json.null PARSE_ERROR "Invalid JSON"] ∧
    writesOf (handleMessageActions "not-json".data) = [] :=
  ⟨rfl, rfl⟩

/-- C2 (amended): for every frame whose bytes fail `safeJsonParse`, the
transport emits exactly one `sendError(null, -32700, …)` — which is logged
and writes nothing outbound — and the connection continues: subsequent
frames are processed exactly as if the bad frame had not occurred. -/
theorem c2_parse_failure_logged (raw : List Char) (e : String)
    (h : safeJsonParse raw = .error e) :
    handleMessageActions raw = [MsgAction.errorLogged Json.null PARSE_ERROR e] ∧
    writesOf (handleMessageActions raw) = [] ∧
    (∀ rest : List (List Char),
      processFrames (raw :: rest) =
        MsgAction.errorLogged Json.null PARSE_ERROR e :: processFrames rest) := by
  have h1 : handleMessageActions raw = [MsgAction.errorLogged Json.null PARSE_ERROR e] := by
    unfold handleMessageActions
    rw [h]
  refine ⟨h1, ?_, ?_⟩
  · rw [h1]
    rfl
  · intro rest
    unfold processFrames
    rw [List.flatMap_cons, h1]
    rfl

/-- C2 witness: the amended statement instantiated at the frame
`not-json`. -/
theorem c2_parse_failure_witness :
    safeJsonParse "not-json".data = .error "Invalid JSON" ∧
    (handleMessageActions "not-json".data =
        [MsgAction.errorLogged Json.null PARSE_ERROR "Invalid JSON"] ∧
      writesOf (handleMessageActions "not-json".data) = [] ∧
      (∀ rest : List (List Char),
        processFrames ("not-json".data :: rest) =
          MsgAction.errorLogged Json.null PARSE_ERROR "Invalid JSON" ::
            processFrames rest)) :=
  ⟨rfl, c2_parse_failure_logged "not-json".data "Invalid JSON" rfl⟩

/-! ## Transport-level handleNotification (framing.ts lines 519-545) -/

inductive TransportEffect where
  | logWarn (msg : String) : TransportEffect
  | logInfo (msg : String) : TransportEffect
  | logErr (msg : String) : TransportEffect
  | stdoutWrite (id : Json) (body : Json) : TransportEffect

/-- `StdioTransport.handleNotification`: log (a warning for the legacy
`notifications/initialized`, info otherwise), invoke the optional
notification handler, and swallow its error with another log line — no
path writes to stdout, whatever the handler does. -/
def handleNotificationT (method : String) (handlerPresent : Bool)
    (handlerResult : Except JsError Unit) : List TransportEffect :=
  (if method = "notifications/initialized" then
     [TransportEffect.logWarn "⚠️ Legacy initialized notification accepted"]
   else [TransportEffect.logInfo "Notification received"]) ++
  (if handlerPresent then
     match handlerResult with
     | .ok _ => []
     | .error _ => [TransportEffect.logErr "Notification handler error"]
   else [])

/-! ## Dispatcher-level handleNotification (dispatcher.ts lines 128-160) -/

inductive NotifEffect where
  | beforeHookRan : NotifEffect
  | handlerRan : NotifEffect
  | afterHookRan : NotifEffect
  | onErrorCalled : NotifEffect
  | loggedError : NotifEffect
  | wroteResponse (r : RpcResponseM) : NotifEffect

/-- The catch block (lines 152-159): call `onError` if configured, then
`console.error` — and return nothing. -/
def notifCatch (reg : RegistryM) : List NotifEffect :=
  (if reg.onError.isSome then [NotifEffect.onErrorCalled] else []) ++
  [NotifEffect.loggedError]

/-- The afterNotification hook step. -/
def notifAfter (reg : RegistryM) (n : RpcNotificationM) : List NotifEffect :=
  match reg.afterNotification with
  | none => []
  | some ha =>
    match ha n with
    | .ok _ => [NotifEffect.afterHookRan]
    | .error _ => NotifEffect.afterHookRan :: notifCatch reg

/-- Handler lookup and invocation: a missing handler is a silent no-op
(lines 143-146). -/
def notifRun (reg : RegistryM) (n : RpcNotificationM) : List NotifEffect :=
  match reg.notificationHandlers n.method with
  | none => notifAfter reg n
  | some h =>
    match h n with
    | .ok _ => NotifEffect.handlerRan :: notifAfter reg n
    | .error _ => NotifEffect.handlerRan :: notifCatch reg

/-- `RpcHandlerRegistry.handleNotification` (lines 128-160): the function
returns `void`; its observable effects never include a response. -/
def handleNotificationD (reg : RegistryM) (n : RpcNotificationM) : List NotifEffect :=
  match reg.beforeNotification with
  | none => notifRun reg n
  | some hb =>
    match hb n with
    | .ok _ => NotifEffect.beforeHookRan :: notifRun reg n
    | .error _ => NotifEffect.beforeHookRan :: notifCatch reg

theorem notifCatch_no_resp (reg : RegistryM) (r : RpcResponseM) :
    NotifEffect.wroteResponse r ∉ notifCatch reg := by
  unfold notifCatch
  rcases hoe : reg.onError.isSome <;> simp [hoe]

theorem notifAfter_no_resp (reg : RegistryM) (n : RpcNotificationM) (r : RpcResponseM) :
    NotifEffect.wroteResponse r ∉ notifAfter reg n := by
  unfold notifAfter notifCatch
  rcases hha : reg.afterNotification with _ | ha
  · simp
  · dsimp only
    rcases han : ha n with e | u <;> rcases hoe : reg.onError.isSome <;> simp [han, hoe]

theorem notifRun_no_resp (reg : RegistryM) (n : RpcNotificationM) (r : RpcResponseM) :
    NotifEffect.wroteResponse r ∉ notifRun reg n := by
  unfold notifRun
  rcases hh : reg.notificationHandlers n.method with _ | h
  · exact notifAfter_no_resp reg n r
  · dsimp only
    rcases hn2 : h n with e | u
    · unfold notifCatch
      rcases hoe : reg.onError.isSome <;> simp [hn2, hoe]
    · simp only [hn2]
      simp only [List.mem_cons, not_or]
      exact ⟨by simp, notifAfter_no_resp reg n r⟩

/-- C9: a message classified as a Notification never causes an outbound
write: (a) `handleMessage` turns it into exactly one `notify` action (no
write, no dispatch); (b) the transport's `handleNotification` emits no
stdout write for any method — `notifications/initialized` included — any
params, any handler outcome, including a throwing handler; (c) the
dispatcher's notification path produces no response for any registry:
missing handler is a silent no-op and handler errors go to `onError` and
the log only. -/
theorem c9_notifications_never_respond :
    (∀ m : Json, isNotification m = true → classifyAction m = [MsgAction.notify m]) ∧
    (∀ (method : String) (present : Bool) (res : Except JsError Unit),
      ∀ eff ∈ handleNotificationT method present res,
        ∀ id body, eff ≠ TransportEffect.stdoutWrite id body) ∧
    (∀ (reg : RegistryM) (n : RpcNotificationM),
      ∀ r : RpcResponseM, NotifEffect.wroteResponse r ∉ handleNotificationD reg n) := by
  refine ⟨?_, ?_, ?_⟩
  · intro m hm
    unfold classifyAction
    rw [hm]
    rfl
  · intro method present res eff heff id body
    unfold handleNotificationT at heff
    rcases List.mem_append.mp heff with h | h
    · by_cases hm : method = "notifications/initialized" <;>
        simp [hm] at h <;> simp [h]
    · cases present with
      | false => simp at h
      | true =>
        cases res with
        | ok u => simp at h
        | error e =>
          simp at h
          simp [h]
  · intro reg n r
    unfold handleNotificationD
    rcases hbn2 : reg.beforeNotification with _ | hb
    · exact notifRun_no_resp reg n r
    · dsimp only
      rcases hbn : hb n with e | u
      · unfold notifCatch
        rcases hoe : reg.onError.isSome <;> simp [hbn, hoe]
      · simp only [hbn]
        simp only [List.mem_cons, not_or]
        exact ⟨by simp, notifRun_no_resp reg n r⟩

/-- C9 witness: a `notifications/initialized` notification (with params)
parses, classifies as a Notification, becomes one `notify` action, and
the transport-level handling of it — with a throwing handler — emits no
stdout write. -/
theorem c9_notifications_witness :
    isNotification (Json.obj [("jsonrpc", Json.str "2.0"),
      ("method", Json.str "notifications/initialized"),
      ("params", Json.obj [("x", Json.num "1")])]) = true ∧
    classifyAction (Json.obj [("jsonrpc", Json.str "2.0"),
      ("method", Json.str "notifications/initialized"),
      ("params", Json.obj [("x", Json.num "1")])]) =
      [MsgAction.notify (Json.obj [("jsonrpc", Json.str "2.0"),
        ("method", Json.str "notifications/initialized"),
        ("params", Json.obj [("x", Json.num "1")])])] ∧
    (∀ eff ∈ handleNotificationT "notifications/initialized" true
        (.error ⟨true, "boom", true, false, false⟩),
      ∀ id body, eff ≠ TransportEffect.stdoutWrite id body) :=
  ⟨rfl,
   c9_notifications_never_respond.1 _ rfl,
   fun eff heff => c9_notifications_never_respond.2.1
     "notifications/initialized" true (.error ⟨true, "boom", true, false, false⟩) eff heff⟩

end MCPF
